import Mathlib

/-!
Verification of the cadastre-api geographic search and enrichment core.

Shallow embedding of the TypeScript sources:
- `RateLimiter` and `EntreprisesApiClient` (entreprises-api service),
- `geo-search-postgis.ts` (second, authoritative version in the file):
  `transformToPropiete`, `groupProprietesParAdresse`, the per-owner grouping
  map, the `proprietaires_uniques` CTE query, and the batch / streaming
  polygon search orchestrators,
- the `/search/geo` route's streaming disconnect handling (routes/search.ts).

Machine integers are modelled as `Nat`/`Int`; `Date.now()` timestamps as `Nat`
milliseconds; JS exceptions as `Except`; `null`/`undefined` as `Option`;
JS string falsiness (`s || t`) as a test against the empty string.
-/

namespace Cadastre

/-! ## RateLimiter (entreprises-api, lines 9-35)

```ts
async waitForSlot(): Promise<void> {
  const now = Date.now();
  this.timestamps = this.timestamps.filter(ts => now - ts < this.windowMs);
  if (this.timestamps.length >= this.maxRequests) {
    const oldestTs = this.timestamps[0];
    const waitTime = this.windowMs - (now - oldestTs) + 10;
    await new Promise(resolve => setTimeout(resolve, waitTime));
    return this.waitForSlot();
  }
  this.timestamps.push(now);
}
```

One synchronous execution of the body (prune, admission check, push) is
`waitForSlotStep`; the retry after the `setTimeout` is a later step in the
call-time trace, so a whole concurrent execution is `runWaitForSlot` over the
non-decreasing list of instants at which some invocation runs the body.
A step that pushes is a completion (granted acquisition). -/

structure RateLimiter where
  maxRequests : Nat
  windowMs : Nat

/-- `this.timestamps = this.timestamps.filter(ts => now - ts < this.windowMs)` -/
def pruneTimestamps (rl : RateLimiter) (now : Nat) (ts : List Nat) : List Nat :=
  ts.filter (fun t => now - t < rl.windowMs)

/-- One execution of the `waitForSlot` body at instant `now` over state `ts`:
returns the new timestamp list and whether the slot was granted (push) or the
invocation went to sleep (retry). -/
def waitForSlotStep (rl : RateLimiter) (ts : List Nat) (now : Nat) : List Nat × Bool :=
  let pruned := pruneTimestamps rl now ts
  if rl.maxRequests ≤ pruned.length then (pruned, false)
  else (pruned ++ [now], true)

/-- Run the limiter over a trace of body-execution instants, starting from
state `ts`; returns the final timestamp list and the list of instants at which
a slot was granted (i.e. at which some `waitForSlot` call completed). -/
def runWaitForSlot (rl : RateLimiter) (ts : List Nat) : List Nat → List Nat × List Nat
  | [] => (ts, [])
  | now :: rest =>
    let step := waitForSlotStep rl ts now
    let r := runWaitForSlot rl step.1 rest
    (r.1, if step.2 then now :: r.2 else r.2)

/-- Membership of instant `t` in the trailing window `(w - windowMs, w]`,
matching the retention predicate `now - ts < windowMs` for past instants. -/
def inWindow (rl : RateLimiter) (w t : Nat) : Bool :=
  decide (t ≤ w) && decide (w - t < rl.windowMs)

lemma pruneTimestamps_sublist (rl : RateLimiter) (now : Nat) (ts : List Nat) :
    (pruneTimestamps rl now ts).Sublist ts :=
  List.filter_sublist ts

lemma pruneTimestamps_length_le (rl : RateLimiter) (now : Nat) (ts : List Nat) :
    (pruneTimestamps rl now ts).length ≤ ts.length :=
  (pruneTimestamps_sublist rl now ts).length_le

lemma mem_pruneTimestamps (rl : RateLimiter) {now : Nat} {ts : List Nat} {t : Nat}
    (h : t ∈ pruneTimestamps rl now ts) : t ∈ ts :=
  (List.mem_filter.mp h).1

/-- Pruning at a later instant subsumes pruning at an earlier one. -/
lemma prune_prune (rl : RateLimiter) {now now' : Nat} (h : now ≤ now') (ts : List Nat)
    (hts : ∀ t ∈ ts, t ≤ now) :
    pruneTimestamps rl now' (pruneTimestamps rl now ts) = pruneTimestamps rl now' ts := by
  unfold pruneTimestamps
  rw [List.filter_filter]
  refine List.filter_congr ?_
  intro t ht
  have ht' : t ≤ now := hts t ht
  by_cases hlt : now' - t < rl.windowMs
  · have : now - t < rl.windowMs :=
      lt_of_le_of_lt (Nat.sub_le_sub_right h t) hlt
    simp [hlt, this]
  · simp [hlt]

/-- For a list of past instants, the retention filter agrees with `inWindow`. -/
lemma prune_eq_filter_inWindow (rl : RateLimiter) {now : Nat} (l : List Nat)
    (h : ∀ t ∈ l, t ≤ now) :
    pruneTimestamps rl now l = l.filter (inWindow rl now) := by
  unfold pruneTimestamps
  refine List.filter_congr ?_
  intro t ht
  have : t ≤ now := h t ht
  simp [inWindow, this]

lemma countP_le_countP {α : Type} (p q : α → Bool) (l : List α)
    (h : ∀ a ∈ l, p a = true → q a = true) :
    l.countP p ≤ l.countP q := by
  induction l with
  | nil => simp
  | cons a l ih =>
    have ih' := ih (fun a ha hpa => h a (List.mem_cons_of_mem _ ha) hpa)
    by_cases hpa : p a = true
    · have hqa := h a (List.mem_cons_self a l) hpa
      simp [List.countP_cons, hpa, hqa]
      omega
    · simp only [List.countP_cons]
      simp only [Bool.not_eq_true] at hpa
      simp [hpa]
      omega

lemma length_filter_le_length_filter {α : Type} (p q : α → Bool) (l : List α)
    (h : ∀ a ∈ l, p a = true → q a = true) :
    (l.filter p).length ≤ (l.filter q).length := by
  rw [← List.countP_eq_length_filter, ← List.countP_eq_length_filter]
  exact countP_le_countP p q l h

/-- Main invariant of the sliding-window limiter: starting from a state that
prunes identically to the grant history `hist`, every trailing window of the
extended history stays within `maxRequests`. -/
lemma runWaitForSlot_window_inv (rl : RateLimiter) :
    ∀ (times : List Nat) (st hist : List Nat) (t0 : Nat),
      times.Pairwise (· ≤ ·) →
      (∀ x ∈ times, t0 ≤ x) →
      (∀ t ∈ hist, t ≤ t0) →
      (∀ t ∈ st, t ≤ t0) →
      (∀ now, t0 ≤ now → pruneTimestamps rl now st = pruneTimestamps rl now hist) →
      (∀ w, (hist.filter (inWindow rl w)).length ≤ rl.maxRequests) →
      ∀ w, ((hist ++ (runWaitForSlot rl st times).2).filter (inWindow rl w)).length
        ≤ rl.maxRequests := by
  intro times
  induction times with
  | nil =>
    intro st hist t0 _ _ _ _ _ hcap w
    simpa [runWaitForSlot] using hcap w
  | cons now rest ih =>
    intro st hist t0 hsort hlb hhist hst hinv hcap w
    have ht0now : t0 ≤ now := hlb now (List.mem_cons_self now rest)
    have hstnow : ∀ t ∈ st, t ≤ now := fun t ht => le_trans (hst t ht) ht0now
    have hhistnow : ∀ t ∈ hist, t ≤ now := fun t ht => le_trans (hhist t ht) ht0now
    have hrest_sorted : rest.Pairwise (· ≤ ·) := (List.pairwise_cons.mp hsort).2
    have hrest_lb : ∀ x ∈ rest, now ≤ x := (List.pairwise_cons.mp hsort).1
    have hpruned_eq : pruneTimestamps rl now st = pruneTimestamps rl now hist :=
      hinv now ht0now
    have hpruned_mem : ∀ t ∈ pruneTimestamps rl now st, t ≤ now :=
      fun t ht => hstnow t (mem_pruneTimestamps rl ht)
    have hinv' : ∀ now', now ≤ now' →
        pruneTimestamps rl now' (pruneTimestamps rl now st) =
          pruneTimestamps rl now' hist := by
      intro now' hnow'
      rw [prune_prune rl hnow' st hstnow]
      exact hinv now' (le_trans ht0now hnow')
    simp only [runWaitForSlot, waitForSlotStep]
    by_cases hfull : rl.maxRequests ≤ (pruneTimestamps rl now st).length
    · -- no grant: state becomes the pruned list, history unchanged
      simp only [hfull, if_pos, if_true]
      exact ih (pruneTimestamps rl now st) hist now hrest_sorted hrest_lb
        hhistnow hpruned_mem hinv' hcap w
    · -- grant at `now`: state and history both gain `now`
      simp only [hfull, if_neg, if_false, if_true]
      have happ : hist ++ now :: (runWaitForSlot rl (pruneTimestamps rl now st ++ [now]) rest).2
          = (hist ++ [now]) ++ (runWaitForSlot rl (pruneTimestamps rl now st ++ [now]) rest).2 := by
        simp
      rw [happ]
      refine ih (pruneTimestamps rl now st ++ [now]) (hist ++ [now]) now hrest_sorted hrest_lb
        ?_ ?_ ?_ ?_ w
      · intro t ht
        rcases List.mem_append.mp ht with h1 | h1
        · exact hhistnow t h1
        · simp only [List.mem_singleton] at h1; omega
      · intro t ht
        rcases List.mem_append.mp ht with h1 | h1
        · exact hpruned_mem t h1
        · simp only [List.mem_singleton] at h1; omega
      · intro now' hnow'
        have h1 := hinv' now' hnow'
        simp only [pruneTimestamps] at h1 ⊢
        rw [List.filter_append, List.filter_append, h1]
      · intro w'
        rw [List.filter_append]
        by_cases hwin : inWindow rl w' now = true
        · -- the fresh grant lies in the window `w'`: use the admission check
          have hle : (hist.filter (inWindow rl w')).length
              ≤ (hist.filter (inWindow rl now)).length := by
            refine length_filter_le_length_filter _ _ hist ?_
            intro t ht hpt
            have htle : t ≤ t0 := hhist t ht
            simp only [inWindow, Bool.and_eq_true, decide_eq_true_eq] at hpt hwin ⊢
            constructor
            · omega
            · have : now - t ≤ w' - t := Nat.sub_le_sub_right hwin.1 t
              omega
          have heq : hist.filter (inWindow rl now) = pruneTimestamps rl now hist :=
            (prune_eq_filter_inWindow rl hist hhistnow).symm
          have hlt : (hist.filter (inWindow rl now)).length < rl.maxRequests := by
            rw [heq, ← hpruned_eq]
            omega
          simp [hwin]
          omega
        · simp only [Bool.not_eq_true] at hwin
          simp [hwin]
          exact hcap w'

lemma runWaitForSlot_state_bound (rl : RateLimiter) :
    ∀ (times : List Nat) (st : List Nat), st.length ≤ rl.maxRequests →
      ((runWaitForSlot rl st times).1).length ≤ rl.maxRequests := by
  intro times
  induction times with
  | nil => intro st h; simpa [runWaitForSlot] using h
  | cons now rest ih =>
    intro st h
    simp only [runWaitForSlot, waitForSlotStep]
    by_cases hfull : rl.maxRequests ≤ (pruneTimestamps rl now st).length
    · simp only [hfull, if_pos]
      exact ih _ (le_trans (pruneTimestamps_length_le rl now st) h)
    · simp only [hfull, if_neg, if_false]
      refine ih _ ?_
      rw [List.length_append, List.length_singleton]
      omega

/-- C3: for any `RateLimiter(maxRequests, windowMs)` and any non-decreasing
trace of `waitForSlot` body executions (bursts included), (a) every trailing
window `(w - windowMs, w]` contains at most `maxRequests` granted completions,
and (b) the retained timestamp list — timestamps older than `windowMs` being
pruned before each admission decision — never exceeds `maxRequests` entries. -/
theorem rateLimiter_sliding_window_bound (rl : RateLimiter) (times : List Nat)
    (hsorted : times.Pairwise (· ≤ ·)) :
    (∀ w, (((runWaitForSlot rl [] times).2).filter (inWindow rl w)).length ≤ rl.maxRequests)
    ∧ ((runWaitForSlot rl [] times).1).length ≤ rl.maxRequests := by
  constructor
  · intro w
    have := runWaitForSlot_window_inv rl times [] [] 0 hsorted
      (fun x _ => Nat.zero_le x) (by simp) (by simp)
      (fun now _ => rfl) (by simp) w
    simpa using this
  · exact runWaitForSlot_state_bound rl times [] (by simp)

/-- C3 witness: a concrete burst trace against `RateLimiter(2, 1000)`. -/
theorem rateLimiter_sliding_window_bound_witness :
    List.Pairwise (· ≤ ·) [0, 100, 200, 1050] ∧
      (((runWaitForSlot ⟨2, 1000⟩ [] [0, 100, 200, 1050]).2).filter
        (inWindow ⟨2, 1000⟩ 1050)).length ≤ 2 :=
  ⟨by decide, (rateLimiter_sliding_window_bound ⟨2, 1000⟩ [0, 100, 200, 1050] (by decide)).1 1050⟩

/-! ## EntreprisesApiClient (entreprises-api)

`resolveBeneficiairesEffectifs` walks the director lists; a director that is a
natural person is emitted with the control chain accumulated so far; a legal
entity triggers a recursive lookup guarded by depth (`MAX_DEPTH`), the shared
visited set (`sirensVisites`, mutated in place in the source and threaded
explicitly here), and an empty-directors check. The source recursion carries
`profondeur` upward and is guarded by `profondeur >= MAX_DEPTH`; the embedding
recurses structurally on the remaining budget `MAX_DEPTH - profondeur`, which
is the same recursion. `appels` logs, in order, each SIREN for which a
rate-limiter slot is taken and an HTTP GET is issued. -/

def MAX_DEPTH : Nat := 5

/-- One element of the raw `dirigeants` array of the registry response.
`siren = ""` models a missing/empty SIREN (JS falsiness). -/
structure DirigeantRaw where
  type_dirigeant : String
  nom : String
  prenoms : String
  qualite : String
  annee_de_naissance : Option String
  siren : String
  denomination : String
deriving DecidableEq

/-- One hop of a control chain: `{ siren, denomination, qualite }`. -/
structure ChainLink where
  siren : String
  denomination : String
  qualite : String
deriving DecidableEq

structure BeneficiaireEffectif where
  nom : String
  prenoms : String
  qualite : String
  annee_naissance : Option String
  chaine_controle : List ChainLink
deriving DecidableEq

/-- Result of one resolution pass: emitted beneficial owners (in order), the
final visited set (threaded, since the source mutates a shared `Set`), and the
log of registry calls issued. -/
structure ResolveOut where
  beneficiaires : List BeneficiaireEffectif
  sirensVisites : List String
  appels : List String
deriving DecidableEq

/-- `fetchDirigeantsRaw`: guard `!siren || siren.length !== 9` returns `[]`
without taking a slot; otherwise one slot + one GET (logged) and the registry
answer (already `[]` on miss or transport error). -/
def fetchDirigeantsRaw (api : String → List DirigeantRaw) (siren : String) :
    List DirigeantRaw × List String :=
  if siren = "" ∨ siren.length ≠ 9 then ([], [])
  else (api siren, [siren])

/-- The beneficial-owner record built from a natural-person director:
`{ nom: d.nom, prenoms: d.prenoms, qualite: d.qualite, annee_naissance,
chaine_controle: [...chaineActuelle] }`. -/
def mkBeneficiaire (d : DirigeantRaw) (chaine : List ChainLink) : BeneficiaireEffectif :=
  { nom := d.nom, prenoms := d.prenoms, qualite := d.qualite,
    annee_naissance := d.annee_de_naissance, chaine_controle := chaine }

/-- The `for (const d of dirigeantsRaw)` loop of
`resolveBeneficiairesEffectifs`, at one depth level. `descend` resolves one
level deeper; `canDescend = false` models `profondeur >= MAX_DEPTH` (that
branch is pruned before the entity is marked visited or fetched). -/
def resolveLoop (api : String → List DirigeantRaw)
    (descend : List DirigeantRaw → List ChainLink → List String → ResolveOut)
    (canDescend : Bool) :
    List DirigeantRaw → List ChainLink → List String → ResolveOut
  | [], _, vis => ⟨[], vis, []⟩
  | d :: rest, chaine, vis =>
    if d.type_dirigeant = "personne physique" then
      let r := resolveLoop api descend canDescend rest chaine vis
      ⟨mkBeneficiaire d chaine :: r.beneficiaires, r.sirensVisites, r.appels⟩
    else if d.type_dirigeant = "personne morale" ∧ d.siren ≠ "" then
      if canDescend = false then
        resolveLoop api descend canDescend rest chaine vis
      else if d.siren ∈ vis then
        resolveLoop api descend canDescend rest chaine vis
      else
        let vis1 := vis ++ [d.siren]
        let fetched := fetchDirigeantsRaw api d.siren
        if fetched.1 = [] then
          let r := resolveLoop api descend canDescend rest chaine vis1
          ⟨r.beneficiaires, r.sirensVisites, fetched.2 ++ r.appels⟩
        else
          let rPM := descend fetched.1 (chaine ++ [⟨d.siren, d.denomination, d.qualite⟩]) vis1
          let r := resolveLoop api descend canDescend rest chaine rPM.sirensVisites
          ⟨rPM.beneficiaires ++ r.beneficiaires, r.sirensVisites,
            fetched.2 ++ rPM.appels ++ r.appels⟩
    else
      resolveLoop api descend canDescend rest chaine vis

/-- Resolution with `n` remaining depth levels (`n = MAX_DEPTH - profondeur`). -/
def resolveDepth (api : String → List DirigeantRaw) :
    Nat → List DirigeantRaw → List ChainLink → List String → ResolveOut
  | 0 => resolveLoop api (fun _ _ vis => ⟨[], vis, []⟩) false
  | n + 1 => resolveLoop api (resolveDepth api n) true

/-- `resolveBeneficiairesEffectifs(dirigeantsRaw, chaineActuelle,
sirensVisites, profondeur)` of the source. -/
def resolveBeneficiairesEffectifs (api : String → List DirigeantRaw)
    (dirigeantsRaw : List DirigeantRaw) (chaineActuelle : List ChainLink)
    (sirensVisites : List String) (profondeur : Nat) : ResolveOut :=
  resolveDepth api (MAX_DEPTH - profondeur) dirigeantsRaw chaineActuelle sirensVisites

/-- Public `dirigeants` entry of the mapped company record. -/
structure Dirigeant where
  nom : String
  prenoms : String
  qualite : String
  type : String
  annee_naissance : Option String := none
  siren : Option String := none
  denomination : Option String := none
deriving DecidableEq

/-- `extractDirigeants(data)`, over `data.dirigeants`. -/
def extractDirigeants (dirigeantsRaw : List DirigeantRaw) : List Dirigeant :=
  dirigeantsRaw.foldr (fun d acc =>
    if d.type_dirigeant = "personne physique" then
      { nom := d.nom, prenoms := d.prenoms, qualite := d.qualite,
        type := "personne_physique", annee_naissance := d.annee_de_naissance } :: acc
    else if d.type_dirigeant = "personne morale" then
      { nom := d.denomination, prenoms := "", qualite := d.qualite,
        type := "personne_morale",
        siren := if d.siren = "" then none else some d.siren,
        denomination := if d.denomination = "" then none else some d.denomination } :: acc
    else acc) []

/-- The `tranches` decoding table of `decodeTrancheEffectif`. -/
def tranchesEffectif : List (String × String) :=
  [("00", "0 salarié"), ("01", "1 ou 2 salariés"), ("02", "3 à 5 salariés"),
   ("03", "6 à 9 salariés"), ("11", "10 à 19 salariés"), ("12", "20 à 49 salariés"),
   ("21", "50 à 99 salariés"), ("22", "100 à 199 salariés"), ("31", "200 à 249 salariés"),
   ("32", "250 à 499 salariés"), ("41", "500 à 999 salariés"), ("42", "1000 à 1999 salariés"),
   ("51", "2000 à 4999 salariés"), ("52", "5000 à 9999 salariés"),
   ("53", "10000 salariés et plus")]

def decodeTrancheEffectif (code : String) : String :=
  (tranchesEffectif.lookup code).getD "Non renseigné"

/-- Raw `siege` object of the registry response (numeric coordinates already
carried as their `toString` images). -/
structure SiegeRaw where
  numero_voie : String
  type_voie : String
  libelle_voie : String
  code_postal : String
  libelle_commune : String
  latitude : Option String
  longitude : Option String
deriving DecidableEq

structure SiegeEntreprise where
  adresse : String
  code_postal : String
  commune : String
  latitude : Option String
  longitude : Option String
deriving DecidableEq

/-- `Array.prototype.join(' ')`. -/
def joinSpace : List String → String
  | [] => ""
  | [s] => s
  | s :: rest => s ++ " " ++ joinSpace rest

/-- `mapSiege`: `[numero_voie, type_voie, libelle_voie].filter(Boolean).join(' ')`. -/
def mapSiege (siege : SiegeRaw) : SiegeEntreprise :=
  { adresse := joinSpace (([siege.numero_voie, siege.type_voie, siege.libelle_voie]).filter (· ≠ "")),
    code_postal := siege.code_postal,
    commune := siege.libelle_commune,
    latitude := siege.latitude,
    longitude := siege.longitude }

/-- Raw top-level registry search result (`results[0]`). -/
structure RawCompany where
  siren : String
  nom_complet : String
  nom_raison_sociale : String
  sigle : Option String
  nature_juridique : String
  date_creation : String
  etat_administratif : String
  categorie_entreprise : String
  tranche_effectif_salarie : String
  siege : SiegeRaw
  dirigeants : List DirigeantRaw
  nombre_etablissements_ouverts : Nat
deriving DecidableEq

structure EntrepriseEnrichie where
  siren : String
  nom_complet : String
  nom_raison_sociale : String
  sigle : Option String
  nature_juridique : String
  date_creation : String
  etat_administratif : String
  categorie_entreprise : String
  tranche_effectif : String
  siege : SiegeEntreprise
  dirigeants : List Dirigeant
  beneficiaires_effectifs : List BeneficiaireEffectif
  nombre_etablissements : Nat
deriving DecidableEq

/-- `mapToEntrepriseEnrichie(data)`: seeds the visited set with the original
owner's SIREN (`sirensVisites.add(data.siren)`), resolves beneficial owners
from depth 0 with an empty chain, and assembles the public record. Returns the
record together with the registry-call log of the resolution. -/
def mapToEntrepriseEnrichie (api : String → List DirigeantRaw) (data : RawCompany) :
    EntrepriseEnrichie × List String :=
  let r := resolveBeneficiairesEffectifs api data.dirigeants [] [data.siren] 0
  ({ siren := data.siren,
     nom_complet := data.nom_complet,
     nom_raison_sociale := data.nom_raison_sociale,
     sigle := data.sigle,
     nature_juridique := data.nature_juridique,
     date_creation := data.date_creation,
     etat_administratif := data.etat_administratif,
     categorie_entreprise := data.categorie_entreprise,
     tranche_effectif := decodeTrancheEffectif data.tranche_effectif_salarie,
     siege := mapSiege data.siege,
     dirigeants := extractDirigeants data.dirigeants,
     beneficiaires_effectifs := r.beneficiaires,
     nombre_etablissements := data.nombre_etablissements_ouverts }, r.appels)

/-- Result of `searchBySiren`: the mapped record (or `null`) and the log of
rate-limiter slots taken / HTTP GETs issued (one log entry per slot+GET). -/
structure EnrichOut where
  result : Option EntrepriseEnrichie
  appels : List String
deriving DecidableEq

/-- `searchBySiren(siren)`: guard `!siren || siren.length !== 9` returns
`null` before `waitForSlot`; otherwise one slot + GET, then `null` on a miss
or `mapToEntrepriseEnrichie(results[0])`. `lookup` models the `/search`
top-level response for a SIREN query (`none` = no results or error). -/
def searchBySiren (api : String → List DirigeantRaw) (lookup : String → Option RawCompany)
    (siren : String) : EnrichOut :=
  if siren = "" ∨ siren.length ≠ 9 then ⟨none, []⟩
  else
    match lookup siren with
    | none => ⟨none, [siren]⟩
    | some data =>
      let m := mapToEntrepriseEnrichie api data
      ⟨some m.1, siren :: m.2⟩

/-- `enrichSiren(siren)` = `entreprisesApi.searchBySiren(siren)`. -/
def enrichSiren (api : String → List DirigeantRaw) (lookup : String → Option RawCompany)
    (siren : String) : EnrichOut :=
  searchBySiren api lookup siren

/-! ### Synthetic director graphs used as exhibits -/

/-- A natural-person director. -/
def ppPaul : DirigeantRaw :=
  ⟨"personne physique", "Martin", "Paul", "president", some "1970", "", ""⟩

/-- Legal-entity director pointing back at the original owner `A00000001`. -/
def pmA : DirigeantRaw :=
  ⟨"personne morale", "", "", "gerant", none, "A00000001", "SOCIETE A"⟩

/-- Legal-entity director `B00000002`. -/
def pmB : DirigeantRaw :=
  ⟨"personne morale", "", "", "associe", none, "B00000002", "HOLDING B"⟩

/-- Cyclic registry: `A`'s directors are `[B]`, `B`'s are `[Paul, A]` — the
`A → B → A` cycle of the spec scenario. -/
def cycleApi : String → List DirigeantRaw := fun s =>
  if s = "B00000002" then [ppPaul, pmA] else []

/-- The raw registry record of owner `A00000001` in the cyclic graph. -/
def cycleRawA : RawCompany :=
  { siren := "A00000001", nom_complet := "SOCIETE A", nom_raison_sociale := "SOCIETE A",
    sigle := none, nature_juridique := "5710", date_creation := "2000-01-01",
    etat_administratif := "A", categorie_entreprise := "PME",
    tranche_effectif_salarie := "01",
    siege := ⟨"1", "RUE", "DE LA PAIX", "75001", "PARIS", none, none⟩,
    dirigeants := [pmB], nombre_etablissements_ouverts := 1 }

/-- Legal-entity director `X00000003`. -/
def pmX : DirigeantRaw :=
  ⟨"personne morale", "", "", "associe", none, "X00000003", "HOLDING X"⟩

/-- Legal-entity director `Y00000004`. -/
def pmY : DirigeantRaw :=
  ⟨"personne morale", "", "", "gerant", none, "Y00000004", "HOLDING Y"⟩

/-- Registry in which the same natural person `Paul` controls the owner
through two distinct chains (`X` and `Y`). -/
def twoChainsApi : String → List DirigeantRaw := fun s =>
  if s = "X00000003" then [ppPaul]
  else if s = "Y00000004" then [ppPaul]
  else []

/-! ### Unfolding characterizations of the resolution recursion -/

lemma resolveDepth_singleton_morale (api : String → List DirigeantRaw) (d : DirigeantRaw)
    (chaine : List ChainLink) (vis : List String) (n : Nat)
    (hm : d.type_dirigeant = "personne morale") (hs : d.siren ≠ "") :
    resolveDepth api n [d] chaine vis =
      if n = 0 ∨ d.siren ∈ vis then ⟨[], vis, []⟩
      else if (fetchDirigeantsRaw api d.siren).1 = [] then
        ⟨[], vis ++ [d.siren], (fetchDirigeantsRaw api d.siren).2⟩
      else
        let rPM := resolveDepth api (n - 1) (fetchDirigeantsRaw api d.siren).1
          (chaine ++ [⟨d.siren, d.denomination, d.qualite⟩]) (vis ++ [d.siren])
        ⟨rPM.beneficiaires, rPM.sirensVisites,
          (fetchDirigeantsRaw api d.siren).2 ++ rPM.appels⟩ := by
  have hne : d.type_dirigeant ≠ "personne physique" := by rw [hm]; decide
  cases n with
  | zero => simp [resolveDepth, resolveLoop, hne, hm, hs]
  | succ k =>
    by_cases hv : d.siren ∈ vis
    · simp [resolveDepth, resolveLoop, hne, hm, hs, hv]
    · by_cases hf : (fetchDirigeantsRaw api d.siren).1 = []
      · simp [resolveDepth, resolveLoop, hne, hm, hs, hv, hf]
      · simp [resolveDepth, resolveLoop, hne, hm, hs, hv, hf]

lemma resolveDepth_cons_physique (api : String → List DirigeantRaw) (d : DirigeantRaw)
    (rest : List DirigeantRaw) (chaine : List ChainLink) (vis : List String) (n : Nat)
    (h : d.type_dirigeant = "personne physique") :
    resolveDepth api n (d :: rest) chaine vis =
      ⟨mkBeneficiaire d chaine :: (resolveDepth api n rest chaine vis).beneficiaires,
        (resolveDepth api n rest chaine vis).sirensVisites,
        (resolveDepth api n rest chaine vis).appels⟩ := by
  cases n <;> simp [resolveDepth, resolveLoop, h]

lemma resolveDepth_cons_morale_descend (api : String → List DirigeantRaw)
    (d : DirigeantRaw) (rest : List DirigeantRaw) (chaine : List ChainLink)
    (vis : List String) (n : Nat)
    (hm : d.type_dirigeant = "personne morale") (hs : d.siren ≠ "")
    (hv : d.siren ∉ vis) (hf : (fetchDirigeantsRaw api d.siren).1 ≠ []) :
    resolveDepth api (n + 1) (d :: rest) chaine vis =
      (let rPM := resolveDepth api n (fetchDirigeantsRaw api d.siren).1
          (chaine ++ [⟨d.siren, d.denomination, d.qualite⟩]) (vis ++ [d.siren])
       let r := resolveDepth api (n + 1) rest chaine rPM.sirensVisites
       ⟨rPM.beneficiaires ++ r.beneficiaires, r.sirensVisites,
         (fetchDirigeantsRaw api d.siren).2 ++ rPM.appels ++ r.appels⟩) := by
  have hne : d.type_dirigeant ≠ "personne physique" := by rw [hm]; decide
  simp [resolveDepth, resolveLoop, hne, hm, hs, hv, hf]

/-- C4: beneficial-owner resolution terminates on every director graph and a
legal-entity branch is pruned (no beneficial owner, no descent) exactly when
the depth has reached `MAX_DEPTH = 5`, the entity is already in the visited
set (which `mapToEntrepriseEnrichie` seeds with the original owner's SIREN),
or the entity has no resolvable directors; on the cyclic graph `A → B → A`
the resolution yields exactly the beneficial owners reachable before the cycle
is detected. -/
theorem beneficiaires_pruning_and_cycle_termination :
    (∀ (api : String → List DirigeantRaw) (d : DirigeantRaw) (chaine : List ChainLink)
        (vis : List String) (prof : Nat),
      d.type_dirigeant = "personne morale" → d.siren ≠ "" →
      resolveBeneficiairesEffectifs api [d] chaine vis prof =
        if MAX_DEPTH ≤ prof ∨ d.siren ∈ vis then ⟨[], vis, []⟩
        else if (fetchDirigeantsRaw api d.siren).1 = [] then
          ⟨[], vis ++ [d.siren], (fetchDirigeantsRaw api d.siren).2⟩
        else
          let rPM := resolveBeneficiairesEffectifs api (fetchDirigeantsRaw api d.siren).1
            (chaine ++ [⟨d.siren, d.denomination, d.qualite⟩]) (vis ++ [d.siren]) (prof + 1)
          ⟨rPM.beneficiaires, rPM.sirensVisites,
            (fetchDirigeantsRaw api d.siren).2 ++ rPM.appels⟩)
    ∧ (mapToEntrepriseEnrichie cycleApi cycleRawA).1.beneficiaires_effectifs =
        [⟨"Martin", "Paul", "president", some "1970", [⟨"B00000002", "HOLDING B", "associe"⟩]⟩] := by
  constructor
  · intro api d chaine vis prof hm hs
    unfold resolveBeneficiairesEffectifs
    rw [resolveDepth_singleton_morale api d chaine vis _ hm hs]
    have hsub : MAX_DEPTH - prof - 1 = MAX_DEPTH - (prof + 1) := by omega
    simp only [hsub, Nat.sub_eq_zero_iff_le]
  · decide

/-- C4 witness: the pruning characterization applied to a depth-exhausted
legal-entity director (depth 5 = `MAX_DEPTH`): the branch contributes nothing
and issues no registry call. -/
theorem beneficiaires_pruning_and_cycle_termination_witness :
    pmB.type_dirigeant = "personne morale" ∧ pmB.siren ≠ "" ∧
      resolveBeneficiairesEffectifs cycleApi [pmB] [] ["A00000001"] 5 =
        ⟨[], ["A00000001"], []⟩ :=
  ⟨by decide, by decide, by
    rw [beneficiaires_pruning_and_cycle_termination.1 cycleApi pmB [] ["A00000001"] 5
      (by decide) (by decide)]
    decide⟩

/-- C9: beneficial owners are emitted in director-list order, depth-first:
a natural-person head director is emitted first, tagged with the chain so far,
before the rest of the list; a legal-entity head director's whole subtree is
emitted before the rest of the list; and the same natural person reachable by
two different control chains yields two entries (no deduplication by person
identity), in depth-first left-to-right order. -/
theorem beneficiaires_dfs_order_no_dedup :
    (∀ (api : String → List DirigeantRaw) (d : DirigeantRaw) (rest : List DirigeantRaw)
        (chaine : List ChainLink) (vis : List String) (prof : Nat),
      d.type_dirigeant = "personne physique" →
      (resolveBeneficiairesEffectifs api (d :: rest) chaine vis prof).beneficiaires =
        mkBeneficiaire d chaine ::
          (resolveBeneficiairesEffectifs api rest chaine vis prof).beneficiaires)
    ∧ (∀ (api : String → List DirigeantRaw) (d : DirigeantRaw) (rest : List DirigeantRaw)
        (chaine : List ChainLink) (vis : List String) (prof : Nat),
      d.type_dirigeant = "personne morale" → d.siren ≠ "" → prof < MAX_DEPTH →
      d.siren ∉ vis → (fetchDirigeantsRaw api d.siren).1 ≠ [] →
      (resolveBeneficiairesEffectifs api (d :: rest) chaine vis prof).beneficiaires =
        (resolveBeneficiairesEffectifs api (fetchDirigeantsRaw api d.siren).1
            (chaine ++ [⟨d.siren, d.denomination, d.qualite⟩]) (vis ++ [d.siren])
            (prof + 1)).beneficiaires ++
          (resolveBeneficiairesEffectifs api rest chaine
            (resolveBeneficiairesEffectifs api (fetchDirigeantsRaw api d.siren).1
              (chaine ++ [⟨d.siren, d.denomination, d.qualite⟩]) (vis ++ [d.siren])
              (prof + 1)).sirensVisites prof).beneficiaires)
    ∧ (resolveBeneficiairesEffectifs twoChainsApi [pmX, pmY] [] ["O00000009"] 0).beneficiaires =
        [⟨"Martin", "Paul", "president", some "1970", [⟨"X00000003", "HOLDING X", "associe"⟩]⟩,
         ⟨"Martin", "Paul", "president", some "1970", [⟨"Y00000004", "HOLDING Y", "gerant"⟩]⟩] := by
  refine ⟨?_, ?_, by decide⟩
  · intro api d rest chaine vis prof h
    unfold resolveBeneficiairesEffectifs
    rw [resolveDepth_cons_physique api d rest chaine vis _ h]
  · intro api d rest chaine vis prof hm hs hp hv hf
    unfold resolveBeneficiairesEffectifs
    have hn : MAX_DEPTH - prof = (MAX_DEPTH - (prof + 1)) + 1 := by omega
    rw [hn, resolveDepth_cons_morale_descend api d rest chaine vis _ hm hs hv hf]

/-- C9 witness: the depth-first decomposition applied at a concrete
natural-person head director. -/
theorem beneficiaires_dfs_order_no_dedup_witness :
    ppPaul.type_dirigeant = "personne physique" ∧
      (resolveBeneficiairesEffectifs twoChainsApi [ppPaul, pmX] [] [] 0).beneficiaires =
        mkBeneficiaire ppPaul [] ::
          (resolveBeneficiairesEffectifs twoChainsApi [pmX] [] [] 0).beneficiaires :=
  ⟨by decide,
    beneficiaires_dfs_order_no_dedup.1 twoChainsApi ppPaul [pmX] [] [] 0 (by decide)⟩

/-- The spec's notion of a well-formed identifier: exactly 9 decimal digits. -/
def isNineDigitIdentifier (s : String) : Bool :=
  s.length = 9 && s.data.all Char.isDigit

/-- C8 counterexample: `"ABCDEFGHI"` is not a 9-digit identifier, yet
`enrichSiren` takes a rate-limiter slot and issues a network lookup for it
(the guard checks only `length !== 9`, not digits). -/
theorem enrichSiren_nondigit_counterexample :
    isNineDigitIdentifier "ABCDEFGHI" = false ∧
      (enrichSiren (fun _ => []) (fun _ => none) "ABCDEFGHI").appels = ["ABCDEFGHI"] := by
  constructor
  · decide
  · rfl

/-- C8 (amended): the guard of `enrichSiren` is on length alone — every input
whose length is not 9 yields `none` immediately with no slot taken and no
network call; every input of length 9 (digits or not) leads to a lookup
being attempted (at least one slot + network call). -/
theorem enrichSiren_length_guard (api : String → List DirigeantRaw)
    (lookup : String → Option RawCompany) (siren : String) :
    (siren.length ≠ 9 → enrichSiren api lookup siren = ⟨none, []⟩)
    ∧ (siren.length = 9 → (enrichSiren api lookup siren).appels ≠ []) := by
  constructor
  · intro h
    unfold enrichSiren searchBySiren
    simp [h]
  · intro h
    have hne : siren ≠ "" := by
      intro he
      rw [he] at h
      simp at h
    unfold enrichSiren searchBySiren
    rw [if_neg (by simp [hne, h])]
    cases lookup siren <;> simp

/-- C8 witness: the length-9 non-digit string `"ABCDEFGH7"` triggers a lookup;
the short string `"123"` is rejected with no call. -/
theorem enrichSiren_length_guard_witness :
    ("123".length ≠ 9 ∧ enrichSiren (fun _ => []) (fun _ => none) "123" = ⟨none, []⟩)
    ∧ ("ABCDEFGH7".length = 9 ∧
        (enrichSiren (fun _ => []) (fun _ => none) "ABCDEFGH7").appels ≠ []) :=
  ⟨⟨by decide, (enrichSiren_length_guard (fun _ => []) (fun _ => none) "123").1 (by decide)⟩,
   ⟨by decide, (enrichSiren_length_guard (fun _ => []) (fun _ => none) "ABCDEFGH7").2 (by decide)⟩⟩

/-! ## Insertion-ordered map machinery

Both grouping passes of `geo-search-postgis.ts` use the JS-Map pattern
`if (!map.has(key)) map.set(key, fresh); const e = map.get(key)!; mutate e`
and later iterate in insertion order. A JS `Map` is modelled as an
association list: updating an existing key mutates in place, a new key is
appended at the end. -/

def updAssoc {β : Type} (key : String) (init : β) (upd : β → β) :
    List (String × β) → List (String × β)
  | [] => [(key, upd init)]
  | (k, v) :: rest =>
    if k = key then (k, upd v) :: rest
    else (k, v) :: updAssoc key init upd rest

def findVal {β : Type} (key : String) : List (String × β) → Option β
  | [] => none
  | (k, v) :: rest => if k = key then some v else findVal key rest

/-- One grouping pass: fold the rows into the map, looking up or creating the
entry for `key r` and applying the loop body `upd r` to it. -/
def groupFold {α β : Type} (key : α → String) (init : α → β) (upd : α → β → β)
    (rows : List α) : List (String × β) :=
  rows.foldl (fun m r => updAssoc (key r) (init r) (upd r) m) []

lemma findVal_updAssoc_self {β : Type} (key : String) (init : β) (upd : β → β)
    (m : List (String × β)) :
    findVal key (updAssoc key init upd m) = some (upd ((findVal key m).getD init)) := by
  induction m with
  | nil => simp [updAssoc, findVal]
  | cons kv rest ih =>
    obtain ⟨k, v⟩ := kv
    by_cases h : k = key
    · simp [updAssoc, findVal, h]
    · simp [updAssoc, findVal, h, ih]

lemma findVal_updAssoc_ne {β : Type} {k key : String} (init : β) (upd : β → β)
    (m : List (String × β)) (h : k ≠ key) :
    findVal k (updAssoc key init upd m) = findVal k m := by
  induction m with
  | nil => simp [updAssoc, findVal, Ne.symm h]
  | cons kv rest ih =>
    obtain ⟨k', v⟩ := kv
    by_cases h' : k' = key
    · subst h'
      simp [updAssoc, findVal, Ne.symm h]
    · by_cases h'' : k' = k
      · simp [updAssoc, findVal, h', h'', h]
      · simp [updAssoc, findVal, h', h'', ih]

lemma map_fst_updAssoc {β : Type} (key : String) (init : β) (upd : β → β)
    (m : List (String × β)) :
    (updAssoc key init upd m).map Prod.fst =
      if key ∈ m.map Prod.fst then m.map Prod.fst else m.map Prod.fst ++ [key] := by
  induction m with
  | nil => simp [updAssoc]
  | cons kv rest ih =>
    obtain ⟨k, v⟩ := kv
    by_cases h : k = key
    · simp [updAssoc, h]
    · simp only [updAssoc, if_neg h, List.map_cons, ih]
      by_cases hmem : key ∈ rest.map Prod.fst
      · simp [hmem, Ne.symm h]
      · simp [hmem, Ne.symm h]

lemma length_updAssoc {β : Type} (key : String) (init : β) (upd : β → β)
    (m : List (String × β)) :
    (updAssoc key init upd m).length =
      if key ∈ m.map Prod.fst then m.length else m.length + 1 := by
  have h := congrArg List.length (map_fst_updAssoc key init upd m)
  simp only [List.length_map] at h
  by_cases hmem : key ∈ m.map Prod.fst
  · simpa [hmem] using h
  · simp only [hmem, if_neg, if_false] at h ⊢
    simpa using h

lemma findVal_mem {β : Type} {k : String} {v : β} :
    ∀ {m : List (String × β)}, findVal k m = some v → (k, v) ∈ m := by
  intro m
  induction m with
  | nil => intro h; simp [findVal] at h
  | cons kv rest ih =>
    obtain ⟨k', v'⟩ := kv
    intro h
    by_cases h' : k' = k
    · subst h'
      simp [findVal] at h
      simp [h]
    · simp [findVal, h'] at h
      exact List.mem_cons_of_mem _ (ih h)

lemma mem_map_snd_findVal {β : Type} {v : β} :
    ∀ {m : List (String × β)}, (m.map Prod.fst).Nodup → v ∈ m.map Prod.snd →
      ∃ k, findVal k m = some v := by
  intro m
  induction m with
  | nil => intro _ h; simp at h
  | cons kv rest ih =>
    obtain ⟨k', v'⟩ := kv
    intro hnd h
    have hnd' : (rest.map Prod.fst).Nodup := (List.nodup_cons.mp hnd).2
    have hout : k' ∉ rest.map Prod.fst := (List.nodup_cons.mp hnd).1
    rcases List.mem_cons.mp h with h1 | h1
    · refine ⟨k', ?_⟩
      simp only [findVal, if_pos rfl]
      exact congrArg some h1.symm
    · obtain ⟨k, hk⟩ := ih hnd' h1
      have hkmem : k ∈ rest.map Prod.fst := by
        have := findVal_mem hk
        exact List.mem_map_of_mem Prod.fst this
      have hne : k' ≠ k := fun he => hout (he ▸ hkmem)
      exact ⟨k, by simp [findVal, hne, hk]⟩

lemma groupFold_append {α β : Type} (key : α → String) (init : α → β) (upd : α → β → β)
    (rows : List α) (r : α) :
    groupFold key init upd (rows ++ [r]) =
      updAssoc (key r) (init r) (upd r) (groupFold key init upd rows) := by
  simp [groupFold, List.foldl_append]

/-- Characterization of one grouping pass: the entry finally stored for `k` is
the loop body folded over exactly the rows whose key is `k`, in order, started
from the fresh value created at the first such row. -/
lemma findVal_groupFold {α β : Type} (key : α → String) (init : α → β) (upd : α → β → β)
    (rows : List α) (k : String) :
    findVal k (groupFold key init upd rows) =
      match rows.filter (fun r => key r = k) with
      | [] => none
      | r0 :: rest => some (rest.foldl (fun b r => upd r b) (upd r0 (init r0))) := by
  induction rows using List.reverseRecOn with
  | nil => simp [groupFold, findVal]
  | append_singleton rows r ih =>
    rw [groupFold_append]
    by_cases h : key r = k
    · rw [h, findVal_updAssoc_self, ih]
      rcases hf : rows.filter (fun r => key r = k) with _ | ⟨r0, rest⟩
      · simp [List.filter_append, hf, h]
      · simp [List.filter_append, hf, h, List.foldl_append]
    · rw [findVal_updAssoc_ne _ _ _ (Ne.symm h), ih]
      simp [List.filter_append, h]

lemma mem_map_fst_groupFold {α β : Type} (key : α → String) (init : α → β)
    (upd : α → β → β) (rows : List α) (k : String) :
    k ∈ (groupFold key init upd rows).map Prod.fst ↔ k ∈ rows.map key := by
  induction rows using List.reverseRecOn generalizing k with
  | nil => simp [groupFold]
  | append_singleton rows r ih =>
    rw [groupFold_append, map_fst_updAssoc]
    by_cases hmem : key r ∈ (groupFold key init upd rows).map Prod.fst
    · have hkr : key r ∈ rows.map key := (ih (key r)).mp hmem
      simp only [if_pos hmem, List.map_append, List.map_cons, List.map_nil,
        List.mem_append, List.mem_singleton, ih k]
      constructor
      · exact Or.inl
      · rintro (h | rfl)
        · exact h
        · exact hkr
    · simp only [if_neg hmem, List.map_append, List.map_cons, List.map_nil,
        List.mem_append, List.mem_singleton, ih k]

lemma map_fst_groupFold_nodup {α β : Type} (key : α → String) (init : α → β)
    (upd : α → β → β) (rows : List α) :
    ((groupFold key init upd rows).map Prod.fst).Nodup := by
  induction rows using List.reverseRecOn with
  | nil => simp [groupFold]
  | append_singleton rows r ih =>
    rw [groupFold_append, map_fst_updAssoc]
    by_cases hmem : key r ∈ (groupFold key init upd rows).map Prod.fst
    · simpa [hmem] using ih
    · simp only [if_neg hmem]
      refine ih.append (List.nodup_singleton _) ?_
      intro a ha hb
      rw [List.mem_singleton] at hb
      exact hmem (hb ▸ ha)

lemma length_groupFold {α β : Type} (key : α → String) (init : α → β)
    (upd : α → β → β) (rows : List α) :
    (groupFold key init upd rows).length = ((rows.map key).toFinset).card := by
  induction rows using List.reverseRecOn with
  | nil => simp [groupFold]
  | append_singleton rows r ih =>
    rw [groupFold_append, length_updAssoc]
    by_cases hmem : key r ∈ (groupFold key init upd rows).map Prod.fst
    · have hk : key r ∈ rows.map key := (mem_map_fst_groupFold ..).mp hmem
      have hunion : ((rows ++ [r]).map key).toFinset = (rows.map key).toFinset := by
        simp only [List.map_append, List.toFinset_append, List.map_cons, List.map_nil,
          List.toFinset_cons, List.toFinset_nil, insert_emptyc_eq]
        exact Finset.union_eq_left.mpr (by simpa using hk)
      rw [hunion]
      simp [hmem, ih]
    · have hk : key r ∉ rows.map key := fun h =>
        hmem ((mem_map_fst_groupFold ..).mpr h)
      have hunion : ((rows ++ [r]).map key).toFinset
          = insert (key r) (rows.map key).toFinset := by
        simp only [List.map_append, List.toFinset_append, List.map_cons, List.map_nil,
          List.toFinset_cons, List.toFinset_nil, insert_emptyc_eq]
        rw [Finset.union_comm, ← Finset.insert_eq]
      rw [hunion, Finset.card_insert_of_not_mem (by simpa using hk)]
      simp [hmem, ih]

lemma foldl_upd_preserves {α β : Type} (P : β → Prop) (upd : α → β → β)
    (h : ∀ r b, P b → P (upd r b)) :
    ∀ (l : List α) (b : β), P b → P (l.foldl (fun b r => upd r b) b) := by
  intro l
  induction l with
  | nil => intro b hb; simpa using hb
  | cons r rest ih => intro b hb; exact ih _ (h r b hb)

/-! ## geo-search-postgis: rows, transformToPropiete, grouping

Embedding of the second (authoritative, PostGIS-direct v2.4.0) version of the
service. The abbreviation-table utilities of `utils/abbreviations.ts`
(`decodeNatureVoie`, `normalizeNomVoie`, `decodeFormeJuridique`,
`formatAdresseComplete`) are pure string decoders not inspected by any claim;
they are passed as parameters so all theorems hold for the actual tables.
Coordinates are carried as integers (no claim computes with them). -/

/-- One row of `proprietaires_geo` as selected by the polygon queries
(`ST_X(geom)`/`ST_Y(geom)` as `lon`/`lat`; `geom IS NOT NULL` filtered). The
column `section` is named `section'` because `section` is a Lean keyword. -/
structure GeoRow where
  id : Nat
  departement : String
  code_commune : String
  nom_commune : String
  prefixe_section : String
  section' : String
  numero_plan : String
  numero_voirie : String
  nature_voie : String
  nom_voie : String
  adresse_complete : String
  siren : String
  denomination : String
  forme_juridique : String
  ban_type : String
  lon : Int
  lat : Int
deriving DecidableEq

structure AbbrevFns where
  decodeNatureVoie : String → String
  normalizeNomVoie : String → String
  decodeFormeJuridique : String → String
  formatAdresseComplete : String → String → String → String → String → String → String

structure Adresse where
  numero : String
  indice_repetition : String
  type_voie : String
  nom_voie : String
  code_postal : String
  commune : String
  departement : String
  adresse_complete : String
  latitude : Int
  longitude : Int
deriving DecidableEq

/-- The column `section` is named `section'` (Lean keyword). -/
structure ReferenceCadastrale where
  departement : String
  code_commune : String
  prefixe : Option String
  section' : String
  numero_plan : String
  reference_complete : String
deriving DecidableEq

structure LocalisationLocal where
  batiment : String
  entree : String
  niveau : String
  porte : String
deriving DecidableEq

structure Proprietaire where
  siren : String
  denomination : String
  forme_juridique : String
  forme_juridique_code : String
  groupe : String
  groupe_code : String
  type_droit : String
  type_droit_code : String
deriving DecidableEq

structure Propriete where
  adresse : Adresse
  reference_cadastrale : ReferenceCadastrale
  localisation : LocalisationLocal
  proprietaire : Proprietaire
deriving DecidableEq

/-- `Array.prototype.join('-')`. -/
def joinDash : List String → String
  | [] => ""
  | [s] => s
  | s :: rest => s ++ "-" ++ joinDash rest

/-- `transformToPropiete(raw)` (second version, the one used by both polygon
searches): `reference_complete` is `[departement, code_commune,
prefixe_section, section, numero_plan].filter(Boolean).join('-')`. -/
def transformToPropiete (fns : AbbrevFns) (raw : GeoRow) : Propriete :=
  { adresse :=
      { numero := raw.numero_voirie,
        indice_repetition := "",
        type_voie := fns.decodeNatureVoie raw.nature_voie,
        nom_voie := fns.normalizeNomVoie raw.nom_voie,
        code_postal := "",
        commune := raw.nom_commune,
        departement := raw.departement,
        adresse_complete :=
          if raw.adresse_complete ≠ "" then raw.adresse_complete
          else fns.formatAdresseComplete raw.numero_voirie "" raw.nature_voie
            raw.nom_voie raw.nom_commune raw.departement,
        latitude := raw.lat,
        longitude := raw.lon },
    reference_cadastrale :=
      { departement := raw.departement,
        code_commune := raw.code_commune,
        prefixe := if raw.prefixe_section = "" then none else some raw.prefixe_section,
        section' := raw.section',
        numero_plan := raw.numero_plan,
        reference_complete := joinDash
          (([raw.departement, raw.code_commune, raw.prefixe_section,
             raw.section', raw.numero_plan]).filter (· ≠ "")) },
    localisation := ⟨"", "", "", ""⟩,
    proprietaire :=
      { siren := raw.siren,
        denomination := raw.denomination,
        forme_juridique := fns.decodeFormeJuridique raw.forme_juridique,
        forme_juridique_code := raw.forme_juridique,
        groupe := "", groupe_code := "", type_droit := "", type_droit_code := "" } }

/-! ### groupProprietesParAdresse -/

structure ProprieteGroupee where
  adresse : Adresse
  references_cadastrales : List ReferenceCadastrale
  localisations : List LocalisationLocal
  nombre_lots : Nat
deriving DecidableEq

/-- `prop.adresse.adresse_complete || 'unknown'`. -/
def adresseKey (p : Propriete) : String :=
  if p.adresse.adresse_complete = "" then "unknown" else p.adresse.adresse_complete

/-- Fresh group for a first row: `{ adresse, references_cadastrales: [],
localisations: [], nombre_lots: 0 }`. -/
def emptyGroupe (p : Propriete) : ProprieteGroupee :=
  ⟨p.adresse, [], [], 0⟩

/-- Loop body of `groupProprietesParAdresse`: append the reference and the
localisation together iff the (truthy) `reference_complete` is not already
present; always increment `nombre_lots`. -/
def updateGroupe (p : Propriete) (g : ProprieteGroupee) : ProprieteGroupee :=
  let refComplete := p.reference_cadastrale.reference_complete
  let g1 :=
    if refComplete ≠ "" ∧
        ¬ (g.references_cadastrales.any (fun r => r.reference_complete = refComplete)) then
      { g with references_cadastrales := g.references_cadastrales ++ [p.reference_cadastrale],
               localisations := g.localisations ++ [p.localisation] }
    else g
  { g1 with nombre_lots := g1.nombre_lots + 1 }

/-- The insertion-ordered map built by `groupProprietesParAdresse`. (The
source's `!prop || !prop.adresse` guard is vacuous here: every embedded
`Propriete` carries an `adresse`.) -/
def groupProprietesAssoc (proprietes : List Propriete) : List (String × ProprieteGroupee) :=
  groupFold adresseKey emptyGroupe updateGroupe proprietes

/-- `groupProprietesParAdresse(proprietes)` = `Array.from(grouped.values())`. -/
def groupProprietesParAdresse (proprietes : List Propriete) : List ProprieteGroupee :=
  (groupProprietesAssoc proprietes).map Prod.snd

/-! ### Owner grouping (`proprietairesMap`) -/

/-- `raw.siren || raw.denomination || 'inconnu'`. -/
def ownerKey (r : GeoRow) : String :=
  if r.siren ≠ "" then r.siren
  else if r.denomination ≠ "" then r.denomination
  else "inconnu"

/-- Value type of `proprietairesMap`. `sirens` is the insertion-ordered JS
`Set`; `coords` is `raw.lat && raw.lon ? {lat, lon} : null` (JS numeric
falsiness: `0` is falsy). -/
structure OwnerEntry where
  proprietaire : Proprietaire
  proprietes : List Propriete
  sirens : List String
  coords : Option (Int × Int)
deriving DecidableEq

/-- Fresh `proprietairesMap` entry for a first row. -/
def ownerInit (fns : AbbrevFns) (raw : GeoRow) : OwnerEntry :=
  { proprietaire := (transformToPropiete fns raw).proprietaire,
    proprietes := [],
    sirens := [],
    coords := if raw.lat ≠ 0 ∧ raw.lon ≠ 0 then some (raw.lat, raw.lon) else none }

/-- Loop body: `entry.proprietes.push(propriete); if (raw.siren)
entry.sirens.add(raw.siren)`. -/
def ownerUpd (fns : AbbrevFns) (raw : GeoRow) (e : OwnerEntry) : OwnerEntry :=
  { e with
    proprietes := e.proprietes ++ [transformToPropiete fns raw],
    sirens := if raw.siren ≠ "" ∧ raw.siren ∉ e.sirens
      then e.sirens ++ [raw.siren] else e.sirens }

/-- The `proprietairesMap` grouping loop shared by `searchByPolygon` and
`searchByPolygonStreaming`. -/
def groupByOwner (fns : AbbrevFns) (rows : List GeoRow) : List (String × OwnerEntry) :=
  groupFold ownerKey (ownerInit fns) (ownerUpd fns) rows

lemma mem_findVal {β : Type} {k : String} {v : β} :
    ∀ {m : List (String × β)}, (m.map Prod.fst).Nodup → (k, v) ∈ m →
      findVal k m = some v := by
  intro m
  induction m with
  | nil => intro _ h; cases h
  | cons kv rest ih =>
    obtain ⟨k', v'⟩ := kv
    intro hnd h
    rcases List.mem_cons.mp h with h1 | h1
    · obtain ⟨hk, hv⟩ := Prod.mk.inj h1
      subst hk; subst hv
      simp [findVal]
    · have hkmem : k ∈ rest.map Prod.fst := List.mem_map_of_mem Prod.fst h1
      have hout : k' ∉ rest.map Prod.fst := (List.nodup_cons.mp hnd).1
      have hne : k' ≠ k := fun he => hout (he ▸ hkmem)
      simp only [findVal, if_neg hne]
      exact ih (List.nodup_cons.mp hnd).2 h1

lemma foldl_ownerUpd_proprietes (fns : AbbrevFns) :
    ∀ (l : List GeoRow) (e : OwnerEntry),
      (l.foldl (fun b r => ownerUpd fns r b) e).proprietes
        = e.proprietes ++ l.map (transformToPropiete fns) := by
  intro l
  induction l with
  | nil => intro e; simp
  | cons r rest ih =>
    intro e
    rw [List.foldl_cons, ih (ownerUpd fns r e)]
    simp [ownerUpd]

/-- The entry stored under key `k` collects, in order, the transforms of
exactly the rows whose owner key is `k`. -/
lemma groupByOwner_proprietes (fns : AbbrevFns) (rows : List GeoRow) (k : String)
    (v : OwnerEntry) (h : findVal k (groupByOwner fns rows) = some v) :
    v.proprietes = (rows.filter (fun r => ownerKey r = k)).map (transformToPropiete fns) := by
  rw [groupByOwner, findVal_groupFold] at h
  rcases hf : rows.filter (fun r => ownerKey r = k) with _ | ⟨r0, rest⟩ <;> rw [hf] at h
  · cases h
  · have hv : v = rest.foldl (fun b r => ownerUpd fns r b)
        (ownerUpd fns r0 (ownerInit fns r0)) := (Option.some.inj h).symm
    rw [hv, foldl_ownerUpd_proprietes]
    simp [ownerUpd, ownerInit]

/-- The owner key is recoverable from the embedded `proprietaire` of the
transformed row (the transform copies `siren` and `denomination` verbatim). -/
def ownerKeyOfPropriete (p : Propriete) : String :=
  if p.proprietaire.siren ≠ "" then p.proprietaire.siren
  else if p.proprietaire.denomination ≠ "" then p.proprietaire.denomination
  else "inconnu"

lemma ownerKeyOfPropriete_transform (fns : AbbrevFns) (r : GeoRow) :
    ownerKeyOfPropriete (transformToPropiete fns r) = ownerKey r := rfl

/-- C2: two property rows are aggregated into the same owner entry iff they
have the same owner key (`siren` if non-empty, else `denomination` if
non-empty, else the sentinel `"inconnu"`), and the number of owner entries
equals the number of distinct owner keys among the rows. -/
theorem ownerKey_identity_invariant (fns : AbbrevFns) (rows : List GeoRow) :
    ((groupByOwner fns rows).length = ((rows.map ownerKey).toFinset).card)
    ∧ (∀ r1 ∈ rows, ∀ r2 ∈ rows,
        ((∃ e ∈ groupByOwner fns rows,
            transformToPropiete fns r1 ∈ e.2.proprietes ∧
            transformToPropiete fns r2 ∈ e.2.proprietes)
          ↔ ownerKey r1 = ownerKey r2)) := by
  constructor
  · exact length_groupFold ownerKey (ownerInit fns) (ownerUpd fns) rows
  · intro r1 h1 r2 h2
    constructor
    · rintro ⟨⟨k, v⟩, hmem, hm1, hm2⟩
      have hfind : findVal k (groupByOwner fns rows) = some v :=
        mem_findVal (map_fst_groupFold_nodup ownerKey (ownerInit fns) (ownerUpd fns) rows) hmem
      have hch := groupByOwner_proprietes fns rows k v hfind
      rw [hch] at hm1 hm2
      obtain ⟨s1, hs1, hts1⟩ := List.mem_map.mp hm1
      obtain ⟨s2, hs2, hts2⟩ := List.mem_map.mp hm2
      have hk1 : ownerKey s1 = k := by simpa using (List.mem_filter.mp hs1).2
      have hk2 : ownerKey s2 = k := by simpa using (List.mem_filter.mp hs2).2
      have e1 : ownerKey r1 = ownerKey s1 := by
        rw [← ownerKeyOfPropriete_transform fns r1, ← ownerKeyOfPropriete_transform fns s1, hts1]
      have e2 : ownerKey r2 = ownerKey s2 := by
        rw [← ownerKeyOfPropriete_transform fns r2, ← ownerKeyOfPropriete_transform fns s2, hts2]
      rw [e1, e2, hk1, hk2]
    · intro heq
      have hfilt : r1 ∈ rows.filter (fun r => ownerKey r = ownerKey r1) :=
        List.mem_filter.mpr ⟨h1, by simp⟩
      have hfilt2 : r2 ∈ rows.filter (fun r => ownerKey r = ownerKey r1) :=
        List.mem_filter.mpr ⟨h2, by simp [heq]⟩
      have hfind := findVal_groupFold ownerKey (ownerInit fns) (ownerUpd fns) rows (ownerKey r1)
      rcases hf : rows.filter (fun r => ownerKey r = ownerKey r1) with _ | ⟨r0, rest⟩
      · rw [hf] at hfilt; cases hfilt
      · rw [hf] at hfind
        refine ⟨(ownerKey r1, rest.foldl (fun b r => ownerUpd fns r b)
            (ownerUpd fns r0 (ownerInit fns r0))), findVal_mem hfind, ?_, ?_⟩
        · rw [groupByOwner_proprietes fns rows (ownerKey r1) _ hfind]
          exact List.mem_map_of_mem _ hfilt
        · rw [groupByOwner_proprietes fns rows (ownerKey r1) _ hfind]
          exact List.mem_map_of_mem _ hfilt2

/-- Identity decode functions used for concrete exhibits (the claims never
inspect the decoded strings). -/
def trivialFns : AbbrevFns :=
  ⟨fun s => s, fun s => s, fun s => s, fun n _ _ _ _ v => n ++ " " ++ v⟩

/-- Row of owner `123456789` at a first address. -/
def geoRowA1 : GeoRow :=
  ⟨1, "75", "101", "PARIS", "", "AB", "0001", "0005", "RUE", "DE LA PAIX",
    "5 Rue de la Paix - PARIS 75", "123456789", "ACME", "SA", "housenumber", 2, 48⟩

/-- Second row of owner `123456789`, other parcel and address. -/
def geoRowA2 : GeoRow :=
  ⟨2, "75", "101", "PARIS", "", "AB", "0002", "0007", "RUE", "DU BAC",
    "7 Rue du Bac - PARIS 75", "123456789", "ACME", "SA", "housenumber", 2, 48⟩

/-- Row of a different owner (empty siren, denomination key). -/
def geoRowB : GeoRow :=
  ⟨3, "75", "101", "PARIS", "", "AC", "0003", "0009", "RUE", "DU BAC",
    "9 Rue du Bac - PARIS 75", "", "BETA SCI", "SC", "housenumber", 2, 48⟩

/-- C2 witness: on a concrete 3-row store, the two rows of owner `123456789`
land in one entry, and the invariant instance evaluates. -/
theorem ownerKey_identity_invariant_witness :
    geoRowA1 ∈ [geoRowA1, geoRowA2, geoRowB] ∧ geoRowA2 ∈ [geoRowA1, geoRowA2, geoRowB] ∧
      ((∃ e ∈ groupByOwner trivialFns [geoRowA1, geoRowA2, geoRowB],
          transformToPropiete trivialFns geoRowA1 ∈ e.2.proprietes ∧
          transformToPropiete trivialFns geoRowA2 ∈ e.2.proprietes)
        ↔ ownerKey geoRowA1 = ownerKey geoRowA2) :=
  ⟨by decide, by decide,
    (ownerKey_identity_invariant trivialFns [geoRowA1, geoRowA2, geoRowB]).2
      geoRowA1 (by decide) geoRowA2 (by decide)⟩

/-! ### Per-address grouping: lots, reference dedup, empty references -/

lemma updateGroupe_lots (p : Propriete) (g : ProprieteGroupee) :
    (updateGroupe p g).nombre_lots = g.nombre_lots + 1 := by
  simp only [updateGroupe]
  split <;> rfl

lemma updateGroupe_preserves_eqlen (p : Propriete) (g : ProprieteGroupee)
    (h : g.references_cadastrales.length = g.localisations.length) :
    (updateGroupe p g).references_cadastrales.length
      = (updateGroupe p g).localisations.length := by
  simp only [updateGroupe]
  split
  · simp [h]
  · simp [h]

lemma foldl_updateGroupe_lots :
    ∀ (l : List Propriete) (g : ProprieteGroupee),
      (l.foldl (fun b p => updateGroupe p b) g).nombre_lots = g.nombre_lots + l.length := by
  intro l
  induction l with
  | nil => intro g; simp
  | cons p rest ih =>
    intro g
    rw [List.foldl_cons, ih, updateGroupe_lots]
    simp only [List.length_cons]
    omega

lemma updateGroupe_countRef (c : String) (p : Propriete) (g : ProprieteGroupee) :
    ((updateGroupe p g).references_cadastrales.countP
        (fun r => r.reference_complete = c))
      = if p.reference_cadastrale.reference_complete = c ∧ c ≠ "" ∧
            g.references_cadastrales.countP (fun r => r.reference_complete = c) = 0
        then 1
        else g.references_cadastrales.countP (fun r => r.reference_complete = c) := by
  have hany : (g.references_cadastrales.any
      (fun r => r.reference_complete = p.reference_cadastrale.reference_complete)) = true
        ↔ g.references_cadastrales.countP
          (fun r => r.reference_complete = p.reference_cadastrale.reference_complete) ≠ 0 := by
    rw [List.any_eq_true, Ne, List.countP_eq_zero]
    simp
  by_cases hpc : p.reference_cadastrale.reference_complete = c
  · by_cases h0 : g.references_cadastrales.countP (fun r => r.reference_complete = c) = 0
    · by_cases hc : c = ""
      · have hcond : ¬ (p.reference_cadastrale.reference_complete ≠ "" ∧
            ¬ (g.references_cadastrales.any
              (fun r => r.reference_complete = p.reference_cadastrale.reference_complete))) := by
          simp [hpc, hc]
        simp [updateGroupe, hcond, hpc, hc]
      · have hcond : p.reference_cadastrale.reference_complete ≠ "" ∧
            ¬ (g.references_cadastrales.any
              (fun r => r.reference_complete = p.reference_cadastrale.reference_complete)) := by
          constructor
          · rw [hpc]; exact hc
          · rw [Bool.not_eq_true, ← Bool.not_eq_true]
            intro hx
            exact (hany.mp hx) (hpc ▸ h0)
        simp only [updateGroupe, if_pos hcond]
        rw [if_pos ⟨hpc, hc, h0⟩]
        simp [List.countP_append, List.countP_cons, hpc, h0]
    · have hcond : ¬ (p.reference_cadastrale.reference_complete ≠ "" ∧
          ¬ (g.references_cadastrales.any
            (fun r => r.reference_complete = p.reference_cadastrale.reference_complete))) := by
        intro ⟨_, hno⟩
        exact hno (hany.mpr (hpc ▸ h0))
      simp only [updateGroupe, if_neg hcond]
      rw [if_neg (by intro ⟨_, _, h⟩; exact h0 h)]
  · by_cases hcond : p.reference_cadastrale.reference_complete ≠ "" ∧
        ¬ (g.references_cadastrales.any
          (fun r => r.reference_complete = p.reference_cadastrale.reference_complete))
    · simp only [updateGroupe, if_pos hcond]
      rw [if_neg (by intro ⟨h, _⟩; exact hpc h)]
      simp [List.countP_append, List.countP_cons, hpc]
    · simp only [updateGroupe, if_neg hcond]
      rw [if_neg (by intro ⟨h, _⟩; exact hpc h)]

lemma foldl_updateGroupe_countRef (c : String) (hc : c ≠ "") :
    ∀ (l : List Propriete) (g : ProprieteGroupee),
      g.references_cadastrales.countP (fun r => r.reference_complete = c) ≤ 1 →
      ((l.foldl (fun b p => updateGroupe p b) g).references_cadastrales.countP
          (fun r => r.reference_complete = c))
        = if g.references_cadastrales.countP (fun r => r.reference_complete = c) = 1
              ∨ ∃ p ∈ l, p.reference_cadastrale.reference_complete = c
          then 1 else 0 := by
  intro l
  induction l with
  | nil =>
    intro g hg
    rcases Nat.le_one_iff_eq_zero_or_eq_one.mp hg with h | h <;> simp [h]
  | cons p rest ih =>
    intro g hg
    rw [List.foldl_cons]
    have hstep := updateGroupe_countRef c p g
    by_cases hpc : p.reference_cadastrale.reference_complete = c
    · have hcnt1 : (updateGroupe p g).references_cadastrales.countP
          (fun r => r.reference_complete = c) = 1 := by
        rw [hstep]
        by_cases h0 : g.references_cadastrales.countP (fun r => r.reference_complete = c) = 0
        · simp [hpc, hc, h0]
        · have h1 : g.references_cadastrales.countP (fun r => r.reference_complete = c) = 1 := by
            omega
          rw [if_neg (by intro ⟨_, _, h⟩; exact h0 h)]
          exact h1
      rw [ih _ (le_of_eq hcnt1)]
      rw [if_pos (Or.inl hcnt1), if_pos (Or.inr ⟨p, List.mem_cons_self p rest, hpc⟩)]
    · have hstep0 : (updateGroupe p g).references_cadastrales.countP
          (fun r => r.reference_complete = c)
            = g.references_cadastrales.countP (fun r => r.reference_complete = c) := by
        rw [hstep, if_neg (by intro ⟨h, _⟩; exact hpc h)]
      rw [ih _ (hstep0 ▸ hg), hstep0]
      have hiff : (∃ q ∈ p :: rest, q.reference_cadastrale.reference_complete = c)
          ↔ (∃ q ∈ rest, q.reference_cadastrale.reference_complete = c) := by
        simp only [List.mem_cons]
        constructor
        · rintro ⟨q, hq | hq, hqc⟩
          · exact absurd (hq ▸ hqc) hpc
          · exact ⟨q, hq, hqc⟩
        · rintro ⟨q, hq, hqc⟩
          exact ⟨q, Or.inr hq, hqc⟩
      simp only [hiff]

/-- C6 (amended): for the group stored under address key `k`, `nombre_lots`
counts every row mapped to that address (raw rows, not distinct parcels),
while `references_cadastrales` holds exactly one entry per distinct
**non-empty** `reference_complete` occurring among those rows — re-inserting
the same non-empty parcel is idempotent, and rows whose `reference_complete`
is empty never contribute an entry. -/
theorem groupement_adresse_lots_refs_count (proprietes : List Propriete) (k : String)
    (g : ProprieteGroupee) (h : findVal k (groupProprietesAssoc proprietes) = some g) :
    g.nombre_lots = (proprietes.filter (fun p => adresseKey p = k)).length
    ∧ ∀ c, c ≠ "" →
        g.references_cadastrales.countP (fun r => r.reference_complete = c)
          = if ∃ p ∈ proprietes.filter (fun p => adresseKey p = k),
                p.reference_cadastrale.reference_complete = c
            then 1 else 0 := by
  rw [groupProprietesAssoc, findVal_groupFold] at h
  rcases hf : proprietes.filter (fun p => adresseKey p = k) with _ | ⟨p0, rest⟩ <;> rw [hf] at h
  · cases h
  · have hg : g = rest.foldl (fun b p => updateGroupe p b)
        (updateGroupe p0 (emptyGroupe p0)) := (Option.some.inj h).symm
    constructor
    · rw [hg, foldl_updateGroupe_lots, updateGroupe_lots]
      simp only [emptyGroupe, List.length_cons]
      omega
    · intro c hc
      have hbase : (updateGroupe p0 (emptyGroupe p0)).references_cadastrales.countP
          (fun r => r.reference_complete = c)
            = if p0.reference_cadastrale.reference_complete = c then 1 else 0 := by
        rw [updateGroupe_countRef]
        by_cases hp : p0.reference_cadastrale.reference_complete = c
        · simp [emptyGroupe, hp, hc]
        · simp [emptyGroupe, hp]
      rw [hg, foldl_updateGroupe_countRef c hc _ _
        (by rw [hbase]; by_cases hp : p0.reference_cadastrale.reference_complete = c <;> simp [hp])]
      rw [hbase]
      by_cases hp : p0.reference_cadastrale.reference_complete = c
      · rw [if_pos (Or.inl (by simp [hp])),
          if_pos ⟨p0, List.mem_cons_self p0 rest, hp⟩]
      · have hiff : (∃ q ∈ p0 :: rest, q.reference_cadastrale.reference_complete = c)
            ↔ (∃ q ∈ rest, q.reference_cadastrale.reference_complete = c) := by
          simp only [List.mem_cons]
          constructor
          · rintro ⟨q, hq | hq, hqc⟩
            · exact absurd (hq ▸ hqc) hp
            · exact ⟨q, hq, hqc⟩
          · rintro ⟨q, hq, hqc⟩
            exact ⟨q, Or.inr hq, hqc⟩
        simp only [hiff, hp, if_false]
        simp

lemma joinDash_cons_ne_empty (a : String) (rest : List String) (ha : a ≠ "") :
    joinDash (a :: rest) ≠ "" := by
  cases rest with
  | nil => simpa [joinDash] using ha
  | cons b r =>
    intro h
    have hlen : a.length + 1 + (joinDash (b :: r)).length = 0 := by
      have h2 := congrArg String.length h
      rw [show joinDash (a :: b :: r) = a ++ "-" ++ joinDash (b :: r) from rfl] at h2
      rw [String.length_append, String.length_append] at h2
      have hd : ("-" : String).length = 1 := rfl
      have he : ("" : String).length = 0 := rfl
      rw [hd, he] at h2
      exact h2
    omega

lemma joinDash_filter_empty_iff (l : List String) :
    joinDash (l.filter (· ≠ "")) = "" ↔ ∀ s ∈ l, s = "" := by
  constructor
  · intro h s hs
    by_contra hne
    have hmem : s ∈ l.filter (· ≠ "") := List.mem_filter.mpr ⟨hs, by simpa using hne⟩
    rcases hl : l.filter (· ≠ "") with _ | ⟨a, rest⟩
    · rw [hl] at hmem; cases hmem
    · have ha : a ≠ "" := by
        have hma : a ∈ l.filter (· ≠ "") := hl ▸ List.mem_cons_self a rest
        simpa using (List.mem_filter.mp hma).2
      exact joinDash_cons_ne_empty a rest ha (hl ▸ h)
  · intro h
    have hnil : l.filter (· ≠ "") = [] :=
      List.filter_eq_nil_iff.mpr (fun a ha => by simp [h a ha])
    rw [hnil]
    rfl

/-- Row with all five cadastral key parts empty (derived
`reference_complete` is `""`), at a non-empty address. -/
def geoRowEmptyRef : GeoRow :=
  ⟨4, "", "", "PARIS", "", "", "", "0005", "RUE", "X",
    "5 Rue X - PARIS", "123456789", "ACME", "", "", 0, 0⟩

/-- C10: a row whose derived `reference_complete` is empty — equivalently,
whose five cadastral key parts are all empty — increments `nombre_lots` but
adds nothing to `references_cadastrales` or `localisations`; and in every
group produced by `groupProprietesParAdresse`, `references_cadastrales` and
`localisations` have equal length (appended together under one guard). -/
theorem reference_vide_lots_et_longueurs :
    (∀ (fns : AbbrevFns) (raw : GeoRow),
      ((transformToPropiete fns raw).reference_cadastrale.reference_complete = ""
        ↔ (raw.departement = "" ∧ raw.code_commune = "" ∧ raw.prefixe_section = ""
            ∧ raw.section' = "" ∧ raw.numero_plan = "")))
    ∧ (∀ (p : Propriete) (g : ProprieteGroupee),
        p.reference_cadastrale.reference_complete = "" →
        updateGroupe p g = { g with nombre_lots := g.nombre_lots + 1 })
    ∧ (∀ (proprietes : List Propriete) (g : ProprieteGroupee),
        g ∈ groupProprietesParAdresse proprietes →
        g.references_cadastrales.length = g.localisations.length) := by
  refine ⟨?_, ?_, ?_⟩
  · intro fns raw
    show joinDash (List.filter _ _) = "" ↔ _
    rw [joinDash_filter_empty_iff]
    constructor
    · intro h
      exact ⟨h _ (by simp), h _ (by simp), h _ (by simp), h _ (by simp), h _ (by simp)⟩
    · rintro ⟨h1, h2, h3, h4, h5⟩ s hs
      simp only [List.mem_cons, List.mem_singleton] at hs
      rcases hs with rfl | rfl | rfl | rfl | rfl | hs
      · exact h1
      · exact h2
      · exact h3
      · exact h4
      · exact h5
      · cases hs
  · intro p g h
    simp only [updateGroupe, h]
    simp
  · intro proprietes g hg
    rw [groupProprietesParAdresse] at hg
    obtain ⟨k, hk⟩ := mem_map_snd_findVal
      (map_fst_groupFold_nodup adresseKey emptyGroupe updateGroupe proprietes) hg
    have hk' : findVal k (groupFold adresseKey emptyGroupe updateGroupe proprietes)
        = some g := hk
    rw [findVal_groupFold] at hk'
    rcases hf : proprietes.filter (fun p => adresseKey p = k) with _ | ⟨p0, rest⟩ <;>
      rw [hf] at hk'
    · cases hk'
    · have hgv : g = rest.foldl (fun b p => updateGroupe p b)
          (updateGroupe p0 (emptyGroupe p0)) := (Option.some.inj hk').symm
      rw [hgv]
      exact foldl_upd_preserves
        (fun b => b.references_cadastrales.length = b.localisations.length)
        updateGroupe (fun r b hb => updateGroupe_preserves_eqlen r b hb) rest _
        (updateGroupe_preserves_eqlen p0 (emptyGroupe p0) (by simp [emptyGroupe]))

/-- C10 witness: the concrete all-empty-parts row evaluated through the
pipeline: the derived reference is empty, the group update only bumps the lot
counter, and a concrete grouped output has equal-length lists. -/
theorem reference_vide_lots_et_longueurs_witness :
    ((transformToPropiete trivialFns geoRowEmptyRef).reference_cadastrale.reference_complete = ""
      ↔ (geoRowEmptyRef.departement = "" ∧ geoRowEmptyRef.code_commune = ""
          ∧ geoRowEmptyRef.prefixe_section = "" ∧ geoRowEmptyRef.section' = ""
          ∧ geoRowEmptyRef.numero_plan = ""))
    ∧ updateGroupe (transformToPropiete trivialFns geoRowEmptyRef)
        (emptyGroupe (transformToPropiete trivialFns geoRowEmptyRef))
      = { emptyGroupe (transformToPropiete trivialFns geoRowEmptyRef) with
          nombre_lots := 0 + 1 } :=
  ⟨reference_vide_lots_et_longueurs.1 trivialFns geoRowEmptyRef,
   reference_vide_lots_et_longueurs.2.1 _ _ (by decide)⟩

/-- C6 counterexample: two identical rows with the same (empty)
`reference_complete` at one address yield a group with **zero** entries in
`references_cadastrales` — not "exactly one entry with that
`reference_complete`" as the claim states — while `nombre_lots` is 2. -/
theorem groupement_parcelle_vide_counterexample :
    groupProprietesParAdresse
        [transformToPropiete trivialFns geoRowEmptyRef,
         transformToPropiete trivialFns geoRowEmptyRef]
      = [⟨(transformToPropiete trivialFns geoRowEmptyRef).adresse, [], [], 2⟩]
    ∧ ¬ (∃ g ∈ groupProprietesParAdresse
            [transformToPropiete trivialFns geoRowEmptyRef,
             transformToPropiete trivialFns geoRowEmptyRef],
          g.references_cadastrales.countP
            (fun r => r.reference_complete
              = (transformToPropiete trivialFns
                  geoRowEmptyRef).reference_cadastrale.reference_complete) = 1) := by
  constructor
  · decide
  · decide

/-- C6 witness: the amended statement evaluated on a duplicate non-empty
parcel — two rows, one reference entry, two lots. -/
theorem groupement_adresse_lots_refs_count_witness :
    (findVal (adresseKey (transformToPropiete trivialFns geoRowA1))
        (groupProprietesAssoc [transformToPropiete trivialFns geoRowA1,
          transformToPropiete trivialFns geoRowA1])
      = some (updateGroupe (transformToPropiete trivialFns geoRowA1)
          (updateGroupe (transformToPropiete trivialFns geoRowA1)
            (emptyGroupe (transformToPropiete trivialFns geoRowA1)))))
    ∧ (updateGroupe (transformToPropiete trivialFns geoRowA1)
        (updateGroupe (transformToPropiete trivialFns geoRowA1)
          (emptyGroupe (transformToPropiete trivialFns geoRowA1)))).nombre_lots
      = (([transformToPropiete trivialFns geoRowA1,
           transformToPropiete trivialFns geoRowA1]).filter
          (fun p => adresseKey p = adresseKey (transformToPropiete trivialFns geoRowA1))).length :=
  ⟨by decide,
    (groupement_adresse_lots_refs_count
      [transformToPropiete trivialFns geoRowA1, transformToPropiete trivialFns geoRowA1]
      (adresseKey (transformToPropiete trivialFns geoRowA1)) _ (by decide)).1⟩

/-! ## The `proprietaires_uniques` CTE (owner-identity cap)

```sql
WITH proprietaires_uniques AS (
  SELECT DISTINCT COALESCE(NULLIF(siren, ''), denomination) as proprio_key
  FROM proprietaires_geo
  WHERE geom IS NOT NULL AND ST_Within(geom, ST_GeomFromText($1, 4326))
  LIMIT $2
)
SELECT ... FROM proprietaires_geo p
WHERE p.geom IS NOT NULL AND ST_Within(...)
  AND COALESCE(NULLIF(p.siren, ''), p.denomination) IN (SELECT proprio_key ...)
```

The store is a list of rows in its arbitrary-but-stable enumeration order;
`P` is the spatial predicate (`geom IS NOT NULL AND ST_Within(geom, poly)`);
`SELECT DISTINCT ... LIMIT cap` keeps the first `cap` distinct keys in
enumeration order. -/

/-- `COALESCE(NULLIF(siren, ''), denomination)`. -/
def sqlOwnerKey (r : GeoRow) : String :=
  if r.siren = "" then r.denomination else r.siren

def dedupFirstAux (seen : List String) : List String → List String
  | [] => []
  | x :: xs =>
    if x ∈ seen then dedupFirstAux seen xs
    else x :: dedupFirstAux (seen ++ [x]) xs

/-- `SELECT DISTINCT` in enumeration order (first occurrences kept). -/
def dedupFirst (l : List String) : List String :=
  dedupFirstAux [] l

/-- The `proprietaires_uniques` CTE: the first `cap` distinct owner keys of
the in-region rows. -/
def proprietairesUniques (rows : List GeoRow) (P : GeoRow → Bool) (cap : Nat) : List String :=
  (dedupFirst ((rows.filter P).map sqlOwnerKey)).take cap

/-- The main polygon query: every in-region row whose owner key is in the
CTE. -/
def rowsInPolygon (rows : List GeoRow) (P : GeoRow → Bool) (cap : Nat) : List GeoRow :=
  (rows.filter P).filter (fun r => sqlOwnerKey r ∈ proprietairesUniques rows P cap)

lemma mem_dedupFirstAux (s : String) :
    ∀ (l : List String) (seen : List String),
      s ∈ dedupFirstAux seen l ↔ (s ∈ l ∧ s ∉ seen) := by
  intro l
  induction l with
  | nil => intro seen; simp [dedupFirstAux]
  | cons x xs ih =>
    intro seen
    by_cases hx : x ∈ seen
    · rw [dedupFirstAux, if_pos hx, ih]
      constructor
      · rintro ⟨h1, h2⟩
        exact ⟨List.mem_cons_of_mem x h1, h2⟩
      · rintro ⟨h1, h2⟩
        rcases List.mem_cons.mp h1 with rfl | h1
        · exact absurd hx h2
        · exact ⟨h1, h2⟩
    · rw [dedupFirstAux, if_neg hx]
      by_cases hsx : s = x
      · subst hsx
        simp [hx]
      · rw [List.mem_cons]
        constructor
        · rintro (rfl | h1)
          · exact absurd rfl hsx
          · obtain ⟨h2, h3⟩ := (ih (seen ++ [x])).mp h1
            refine ⟨List.mem_cons_of_mem x h2, fun hs => h3 ?_⟩
            exact List.mem_append.mpr (Or.inl hs)
        · rintro ⟨h1, h2⟩
          rcases List.mem_cons.mp h1 with rfl | h1
          · exact absurd rfl hsx
          · refine Or.inr ((ih (seen ++ [x])).mpr ⟨h1, fun hs => ?_⟩)
            rcases List.mem_append.mp hs with hs | hs
            · exact h2 hs
            · rw [List.mem_singleton] at hs
              exact hsx hs

lemma mem_dedupFirst (s : String) (l : List String) :
    s ∈ dedupFirst l ↔ s ∈ l := by
  rw [dedupFirst, mem_dedupFirstAux]
  simp

/-- C5: the owner cap applies to distinct owner identities, not row count:
(i) a row is returned iff it is an in-region store row whose owner key is
among the first `cap` distinct owner keys found in the region; (ii) if any
row of an owner is returned, every in-region row of that owner is returned —
never a partial slice; (iii) the owner keys present in the result are exactly
the keys of the cap-sized CTE. -/
theorem rowsIn_owner_cap_semantics (rows : List GeoRow) (P : GeoRow → Bool) (cap : Nat) :
    (∀ r, r ∈ rowsInPolygon rows P cap ↔
      (r ∈ rows ∧ P r = true ∧ sqlOwnerKey r ∈ proprietairesUniques rows P cap))
    ∧ (∀ r ∈ rowsInPolygon rows P cap, ∀ r' ∈ rows, P r' = true →
        sqlOwnerKey r' = sqlOwnerKey r → r' ∈ rowsInPolygon rows P cap)
    ∧ (∀ s, s ∈ (rowsInPolygon rows P cap).map sqlOwnerKey ↔
        s ∈ proprietairesUniques rows P cap) := by
  have hmem : ∀ r, r ∈ rowsInPolygon rows P cap ↔
      (r ∈ rows ∧ P r = true ∧ sqlOwnerKey r ∈ proprietairesUniques rows P cap) := by
    intro r
    rw [rowsInPolygon, List.mem_filter, List.mem_filter]
    constructor
    · rintro ⟨⟨h1, h2⟩, h3⟩
      exact ⟨h1, h2, by simpa using h3⟩
    · rintro ⟨h1, h2, h3⟩
      exact ⟨⟨h1, h2⟩, by simpa using h3⟩
  refine ⟨hmem, ?_, ?_⟩
  · intro r hr r' hr' hP hkey
    obtain ⟨_, _, hk⟩ := (hmem r).mp hr
    exact (hmem r').mpr ⟨hr', hP, hkey ▸ hk⟩
  · intro s
    constructor
    · intro hs
      obtain ⟨r, hr, rfl⟩ := List.mem_map.mp hs
      exact ((hmem r).mp hr).2.2
    · intro hs
      have hsl : s ∈ (rows.filter P).map sqlOwnerKey := by
        have := List.take_subset cap (dedupFirst ((rows.filter P).map sqlOwnerKey)) hs
        exact (mem_dedupFirst s _).mp this
      obtain ⟨r, hr, rfl⟩ := List.mem_map.mp hsl
      refine List.mem_map_of_mem _ ?_
      exact (hmem r).mpr ⟨(List.mem_filter.mp hr).1, (List.mem_filter.mp hr).2, hs⟩

/-- Third row of owner `123456789`. -/
def geoRowA3 : GeoRow :=
  ⟨5, "75", "101", "PARIS", "", "AB", "0004", "0011", "RUE", "DU BAC",
    "11 Rue du Bac - PARIS 75", "123456789", "ACME", "SA", "housenumber", 2, 48⟩

/-- Second row of the denomination-keyed owner `BETA SCI`. -/
def geoRowB2 : GeoRow :=
  ⟨6, "75", "101", "PARIS", "", "AC", "0005", "0013", "RUE", "DU BAC",
    "13 Rue du Bac - PARIS 75", "", "BETA SCI", "SC", "housenumber", 2, 48⟩

/-- Single row of a third owner `555555555`, capped out at `ownerCap = 2`. -/
def geoRowC1 : GeoRow :=
  ⟨7, "75", "101", "PARIS", "", "AD", "0006", "0015", "RUE", "DU BAC",
    "15 Rue du Bac - PARIS 75", "555555555", "GAMMA", "SA", "housenumber", 2, 48⟩

/-- The spec's owner-cap store: owner A (3 rows), B (2 rows), C (1 row). -/
def capStoreRows : List GeoRow :=
  [geoRowA1, geoRowA2, geoRowB, geoRowA3, geoRowB2, geoRowC1]

/-- C5 witness: with `ownerCap = 2` on the A/B/C store, a returned row of A
forces every other in-region row of A to be returned; C's row is excluded and
the result is exactly the five A and B rows. -/
theorem rowsIn_owner_cap_semantics_witness :
    (geoRowA1 ∈ rowsInPolygon capStoreRows (fun _ => true) 2
      ∧ geoRowA3 ∈ capStoreRows ∧ sqlOwnerKey geoRowA3 = sqlOwnerKey geoRowA1
      ∧ geoRowA3 ∈ rowsInPolygon capStoreRows (fun _ => true) 2)
    ∧ rowsInPolygon capStoreRows (fun _ => true) 2
        = [geoRowA1, geoRowA2, geoRowB, geoRowA3, geoRowB2] :=
  ⟨⟨by decide, by decide, by decide,
    (rowsIn_owner_cap_semantics capStoreRows (fun _ => true) 2).2.1 geoRowA1 (by decide)
      geoRowA3 (by decide) (by decide) (by decide)⟩,
   by decide⟩

/-! ## Polygon search orchestrators (batch and streaming)

`pool.query` faults are modelled per query (`countFault`, `queryFault`); a JS
`throw` is `Except.error`. `searchByPolygon` (batch) catches everything and
returns a structured empty result carrying the error message; the `catch` of
`searchByPolygonStreaming` ends in `throw error`, modelled by returning
`Except.error`. Enrichment goes through `enrichSiren` and its failures are
swallowed per owner. -/

def MAX_RESULTS : Nat := 10000

def MAX_ENRICHMENT_BATCH : Nat := 100

/-- `Array.prototype.join(', ')`. -/
def joinComma : List String → String
  | [] => ""
  | [s] => s
  | s :: rest => s ++ ", " ++ joinComma rest

/-- `polygonToWKT`: close the ring if first ≠ last, then render. -/
def polygonToWKT (polygon : List (Int × Int)) : String :=
  let coords :=
    match polygon.head?, polygon.getLast? with
    | some f, some l => if f ≠ l then polygon ++ [f] else polygon
    | _, _ => polygon
  "POLYGON((" ++ joinComma (coords.map (fun c => toString c.1 ++ " " ++ toString c.2)) ++ "))"

/-- The spatial store plus per-query fault injection (`pool.query` throwing
on the COUNT query or on the main row query). -/
structure Database where
  rows : List GeoRow
  countFault : Option String
  queryFault : Option String

/-- The COUNT query: `COUNT(DISTINCT COALESCE(NULLIF(siren,''), denomination))`
and `COUNT(*)` over the in-region rows. -/
def countUniqueQuery (db : Database) (P : GeoRow → Bool) : Except String (Nat × Nat) :=
  match db.countFault with
  | some m => .error m
  | none => .ok ((dedupFirst ((db.rows.filter P).map sqlOwnerKey)).length,
      (db.rows.filter P).length)

/-- The main owner-capped row query (the `proprietaires_uniques` CTE). -/
def mainQuery (db : Database) (P : GeoRow → Bool) (cap : Nat) :
    Except String (List GeoRow) :=
  match db.queryFault with
  | some m => .error m
  | none => .ok (rowsInPolygon db.rows P cap)

/-- `ProprietaireResult` of geo-search-postgis (one owner's streamed/batched
payload). -/
structure ProprietaireResult where
  proprietaire : Proprietaire
  proprietes : List ProprieteGroupee
  entreprise : Option EntrepriseEnrichie
  nombre_adresses : Nat
  nombre_lots : Nat
  coordonnees : Option (Int × Int)
deriving DecidableEq

/-- One iteration of the batch enrichment loop: enrich when there is a first
siren of length 9 and the enrichment budget `MAX_ENRICHMENT_BATCH` is not
exhausted (the counter only moves on success), then push the owner's result. -/
def batchStep (api : String → List DirigeantRaw) (lookup : String → Option RawCompany)
    (acc : List ProprietaireResult × Nat) (kv : String × OwnerEntry) :
    List ProprietaireResult × Nat :=
  let v := kv.2
  let er : Option EntrepriseEnrichie × Nat :=
    match v.sirens.head? with
    | some s =>
      if s.length = 9 ∧ acc.2 < MAX_ENRICHMENT_BATCH then
        match (enrichSiren api lookup s).result with
        | some e => (some e, acc.2 + 1)
        | none => (none, acc.2)
      else (none, acc.2)
    | none => (none, acc.2)
  let groupes := groupProprietesParAdresse v.proprietes
  (acc.1 ++ [{ proprietaire := v.proprietaire, proprietes := groupes,
               entreprise := er.1, nombre_adresses := groupes.length,
               nombre_lots := v.proprietes.length, coordonnees := v.coords }],
    er.2)

def batchEnrichLoop (api : String → List DirigeantRaw) (lookup : String → Option RawCompany)
    (owners : List (String × OwnerEntry)) : List ProprietaireResult × Nat :=
  owners.foldl (batchStep api lookup) ([], 0)

structure BatchResult where
  resultats : List ProprietaireResult
  total_proprietaires : Nat
  total_dans_polygone : Nat
  total_lots : Nat
  adresses_ban_trouvees : Nat
  adresses_matchees : Nat
  max_resultats : Nat
  max_enrichissement : Nat
  mode : String
  debug_wkt : String
  debug_error : Option String
deriving DecidableEq

/-- The `emptyResult` template of the batch search. -/
def emptyBatchResult (limit : Nat) : BatchResult :=
  { resultats := [], total_proprietaires := 0, total_dans_polygone := 0, total_lots := 0,
    adresses_ban_trouvees := 0, adresses_matchees := 0,
    max_resultats := min limit MAX_RESULTS, max_enrichissement := MAX_ENRICHMENT_BATCH,
    mode := "postgis_direct_v2.4.0", debug_wkt := "", debug_error := none }

/-- `searchByPolygon(polygon, limit)` — batch mode. Always returns a
structured `BatchResult`; invalid polygons and store faults become an empty
result with a diagnostic in `debug_error`. -/
def searchByPolygon (api : String → List DirigeantRaw) (lookup : String → Option RawCompany)
    (fns : AbbrevFns) (db : Database) (P : GeoRow → Bool)
    (polygon : List (Int × Int)) (limit : Nat) : BatchResult :=
  if polygon.length < 3 then
    { emptyBatchResult limit with
      debug_error := some "Polygone invalide (moins de 3 points)" }
  else
    let effectiveLimit := min limit MAX_RESULTS
    let wkt := polygonToWKT polygon
    match countUniqueQuery db P with
    | .error m => { emptyBatchResult limit with debug_wkt := wkt, debug_error := some m }
    | .ok (totalDansPolygone, _totalLignes) =>
      if totalDansPolygone = 0 then
        { emptyBatchResult limit with debug_wkt := wkt, debug_error := some "Aucun propriétaire trouvé dans le polygone" }
      else
        match mainQuery db P effectiveLimit with
        | .error m => { emptyBatchResult limit with debug_wkt := wkt, debug_error := some m }
        | .ok rows =>
          let owners := groupByOwner fns rows
          let loop := batchEnrichLoop api lookup owners
          { resultats := loop.1,
            total_proprietaires := loop.1.length,
            total_dans_polygone := totalDansPolygone,
            total_lots := rows.length,
            adresses_ban_trouvees := rows.length,
            adresses_matchees := rows.length,
            max_resultats := effectiveLimit,
            max_enrichissement := MAX_ENRICHMENT_BATCH,
            mode := "postgis_direct_v2.4.0",
            debug_wkt := wkt, debug_error := none }

structure StreamStats where
  total_proprietaires : Nat
  total_dans_polygone : Nat
  total_lots : Nat
  enriched_count : Nat
  wkt : String
  query_time_ms : Nat
deriving DecidableEq

def emptyStreamStats : StreamStats := ⟨0, 0, 0, 0, "", 0⟩

/-- One iteration of the streaming loop (v2.4.0, uncapped enrichment): the
emitted pair records whether `enrichSiren` was invoked for this owner and the
`ProprietaireResult` passed to `onResult`. The loop consults no disconnect
signal: `searchByPolygonStreaming` takes none. -/
def streamStep (api : String → List DirigeantRaw) (lookup : String → Option RawCompany)
    (acc : List (Bool × ProprietaireResult) × Nat) (kv : String × OwnerEntry) :
    List (Bool × ProprietaireResult) × Nat :=
  let v := kv.2
  let aec : Bool × Option EntrepriseEnrichie × Nat :=
    match v.sirens.head? with
    | some s =>
      if s.length = 9 then
        match (enrichSiren api lookup s).result with
        | some e => (true, some e, acc.2 + 1)
        | none => (true, none, acc.2)
      else (false, none, acc.2)
    | none => (false, none, acc.2)
  let groupes := groupProprietesParAdresse v.proprietes
  (acc.1 ++ [(aec.1,
    { proprietaire := v.proprietaire, proprietes := groupes,
      entreprise := aec.2.1, nombre_adresses := groupes.length,
      nombre_lots := v.proprietes.length, coordonnees := v.coords })],
    aec.2.2)

def streamEnrichLoop (api : String → List DirigeantRaw) (lookup : String → Option RawCompany)
    (owners : List (String × OwnerEntry)) : List (Bool × ProprietaireResult) × Nat :=
  owners.foldl (streamStep api lookup) ([], 0)

/-- `searchByPolygonStreaming(polygon, limit, onResult)`. The emission list
holds, in loop order, one entry per owner: whether enrichment was invoked and
the value handed to `onResult`. The trailing `catch { throw error }` makes
store faults propagate (`Except.error`). -/
def searchByPolygonStreaming (api : String → List DirigeantRaw)
    (lookup : String → Option RawCompany) (fns : AbbrevFns) (db : Database)
    (P : GeoRow → Bool) (polygon : List (Int × Int)) (limit : Nat) :
    Except String (StreamStats × List (Bool × ProprietaireResult)) :=
  if polygon.length < 3 then .ok (emptyStreamStats, [])
  else
    let effectiveLimit := min limit MAX_RESULTS
    let wkt := polygonToWKT polygon
    match countUniqueQuery db P with
    | .error m => .error m
    | .ok (totalDansPolygone, _totalLignes) =>
      if totalDansPolygone = 0 then .ok (emptyStreamStats, [])
      else
        match mainQuery db P effectiveLimit with
        | .error m => .error m
        | .ok rows =>
          let owners := groupByOwner fns rows
          let loop := streamEnrichLoop api lookup owners
          .ok ({ total_proprietaires := owners.length,
                 total_dans_polygone := totalDansPolygone,
                 total_lots := rows.length,
                 enriched_count := loop.2,
                 wkt := wkt, query_time_ms := 0 }, loop.1)

/-- The `/search/geo` stream route's write gating: with the disconnect
observed after the `k`-th emission, `clientClosed` is `true` from emission
index `k` on, and the callback writes only while `!clientClosed` — the number
of NDJSON `proprietaire` records written out of `n` emissions. -/
def routeStreamWrites (n k : Nat) : Nat :=
  (List.range n).countP (fun i => i < k)

lemma routeStreamWrites_eq_min (n k : Nat) : routeStreamWrites n k = min k n := by
  induction n with
  | zero => simp [routeStreamWrites]
  | succ n ih =>
    simp only [routeStreamWrites, List.range_succ, List.countP_append] at ih ⊢
    by_cases h : n < k
    · simp only [List.countP_cons, List.countP_nil, h]
      simp only [ih]
      simp
      omega
    · simp only [List.countP_cons, List.countP_nil, h]
      simp only [ih]
      simp
      omega

lemma foldl_streamStep_length (api : String → List DirigeantRaw)
    (lookup : String → Option RawCompany) :
    ∀ (owners : List (String × OwnerEntry)) (acc : List (Bool × ProprietaireResult) × Nat),
      ((owners.foldl (streamStep api lookup) acc).1).length = acc.1.length + owners.length := by
  intro owners
  induction owners with
  | nil => intro acc; simp
  | cons kv rest ih =>
    intro acc
    rw [List.foldl_cons, ih]
    have hstep : ((streamStep api lookup acc kv).1).length = acc.1.length + 1 := by
      simp [streamStep]
    rw [hstep, List.length_cons]
    omega

/-- Third distinct owner `777777777` for the streaming scenario. -/
def geoRowE : GeoRow :=
  ⟨9, "75", "101", "PARIS", "", "AE", "0007", "0017", "RUE", "DU BAC",
    "17 Rue du Bac - PARIS 75", "777777777", "DELTA SA", "SA", "housenumber", 2, 48⟩

/-- A valid triangle. -/
def polygonT : List (Int × Int) := [(0, 0), (4, 0), (0, 4)]

/-- Store with three distinct owners, each with a 9-character siren. -/
def db3 : Database := ⟨[geoRowA1, geoRowC1, geoRowE], none, none⟩

/-- Store whose COUNT query throws. -/
def dbFault : Database := ⟨[], some "connection terminated", none⟩

/-- The enrichment-invocation flags of a streaming run, in emission order. -/
def emissionFlags (r : Except String (StreamStats × List (Bool × ProprietaireResult))) :
    List Bool :=
  match r with
  | .ok (_, es) => es.map Prod.fst
  | .error _ => []

/-- Payload of a successful streaming run. -/
def streamOk (r : Except String (StreamStats × List (Bool × ProprietaireResult))) :
    StreamStats × List (Bool × ProprietaireResult) :=
  match r with
  | .ok p => p
  | .error _ => (emptyStreamStats, [])

/-- The 3-owner streaming run used as the disconnect scenario. -/
def streamRun3 : Except String (StreamStats × List (Bool × ProprietaireResult)) :=
  searchByPolygonStreaming (fun _ => []) (fun _ => none) trivialFns db3
    (fun _ => true) polygonT 10

/-- C1 counterexample: on a 3-owner store with the client disconnect observed
after the 1st owner's emission (`k = 1`), `onOwnerReady` still fires 3 times
(not exactly 1), and enrichment is still invoked for both owners processed
after the disconnect (not 0): the streaming loop consults no disconnect
signal at all. -/
theorem streaming_disconnect_counterexample :
    (emissionFlags streamRun3).length = 3
    ∧ ¬ ((emissionFlags streamRun3).length = 1)
    ∧ ((emissionFlags streamRun3).drop 1).countP (fun b => b) = 2
    ∧ ¬ (((emissionFlags streamRun3).drop 1).countP (fun b => b) = 0) :=
  ⟨by decide, by decide, by decide, by decide⟩

/-- C1 (amended): the disconnect signal is honoured only by the route's write
gate, not by the orchestrator: for every successful streaming run the
callback fires once per owner — `ems.length = stats.total_proprietaires`,
whatever the disconnect index `k` — and with the disconnect observed after
the `k`-th emission exactly `min k n` of the `n` owner records are written
downstream; enrichment keeps being invoked after the disconnect (the loop
takes no disconnect input). -/
theorem streaming_disconnect_amended (api : String → List DirigeantRaw)
    (lookup : String → Option RawCompany) (fns : AbbrevFns) (db : Database)
    (P : GeoRow → Bool) (polygon : List (Int × Int)) (limit : Nat)
    (stats : StreamStats) (ems : List (Bool × ProprietaireResult)) (k : Nat)
    (h : searchByPolygonStreaming api lookup fns db P polygon limit = .ok (stats, ems)) :
    ems.length = stats.total_proprietaires
    ∧ routeStreamWrites ems.length k = min k ems.length := by
  refine ⟨?_, routeStreamWrites_eq_min ems.length k⟩
  unfold searchByPolygonStreaming at h
  split at h
  · obtain ⟨h1, h2⟩ := Prod.mk.inj (Except.ok.inj h)
    rw [← h1, ← h2]
    rfl
  · dsimp only at h
    split at h
    · exact Except.noConfusion h
    · split at h
      · obtain ⟨h1, h2⟩ := Prod.mk.inj (Except.ok.inj h)
        rw [← h1, ← h2]
        rfl
      · split at h
        · exact Except.noConfusion h
        · obtain ⟨h1, h2⟩ := Prod.mk.inj (Except.ok.inj h)
          rw [← h1, ← h2]
          simp [streamEnrichLoop, foldl_streamStep_length]

/-- C1 amended witness: the 3-owner run, disconnect after the 1st emission. -/
theorem streaming_disconnect_amended_witness :
    streamRun3 = .ok ((streamOk streamRun3).1, (streamOk streamRun3).2)
    ∧ ((streamOk streamRun3).2.length = (streamOk streamRun3).1.total_proprietaires
        ∧ routeStreamWrites (streamOk streamRun3).2.length 1
            = min 1 (streamOk streamRun3).2.length) :=
  ⟨rfl,
    streaming_disconnect_amended (fun _ => []) (fun _ => none) trivialFns db3
      (fun _ => true) polygonT 10 (streamOk streamRun3).1 (streamOk streamRun3).2 1
      rfl⟩

/-- C7 counterexample: a store fault in streaming mode is rethrown by the
orchestrator (`catch { ... throw error }`) instead of being converted into a
structured empty result: the streaming polygon search propagates the
exception to its caller. -/
theorem streaming_store_fault_counterexample :
    searchByPolygonStreaming (fun _ => []) (fun _ => none) trivialFns dbFault
      (fun _ => true) polygonT 10 = .error "connection terminated" := rfl

/-- C7 (amended): the batch polygon search is total — an invalid polygon
(fewer than 3 points) and store faults during counting or fetching all yield
a structured empty result carrying a diagnostic, never an exception; the
streaming search converts an invalid polygon into a structured empty result
but rethrows store faults to its caller (the HTTP route). -/
theorem polygon_search_error_contract (api : String → List DirigeantRaw)
    (lookup : String → Option RawCompany) (fns : AbbrevFns) (db : Database)
    (P : GeoRow → Bool) (polygon : List (Int × Int)) (limit : Nat) :
    (polygon.length < 3 →
      searchByPolygon api lookup fns db P polygon limit
        = { emptyBatchResult limit with
            debug_error := some "Polygone invalide (moins de 3 points)" })
    ∧ (∀ m, 3 ≤ polygon.length → db.countFault = some m →
        searchByPolygon api lookup fns db P polygon limit
          = { emptyBatchResult limit with
              debug_wkt := polygonToWKT polygon, debug_error := some m })
    ∧ (∀ m, 3 ≤ polygon.length → db.countFault = none → db.queryFault = some m →
        (dedupFirst ((db.rows.filter P).map sqlOwnerKey)).length ≠ 0 →
        searchByPolygon api lookup fns db P polygon limit
          = { emptyBatchResult limit with
              debug_wkt := polygonToWKT polygon, debug_error := some m })
    ∧ (polygon.length < 3 →
        searchByPolygonStreaming api lookup fns db P polygon limit
          = .ok (emptyStreamStats, [])) := by
  refine ⟨?_, ?_, ?_, ?_⟩
  · intro h
    unfold searchByPolygon
    rw [if_pos h]
  · intro m hlen hcf
    unfold searchByPolygon
    rw [if_neg (by omega)]
    simp [countUniqueQuery, hcf]
  · intro m hlen hcf hqf hcnt
    unfold searchByPolygon
    rw [if_neg (by omega)]
    simp [countUniqueQuery, mainQuery, hcf, hqf, hcnt]
  · intro h
    unfold searchByPolygonStreaming
    rw [if_pos h]

/-- C7 witness: the count-fault store on a valid triangle gives the batch
empty result with the fault message as diagnostic. -/
theorem polygon_search_error_contract_witness :
    3 ≤ polygonT.length ∧ dbFault.countFault = some "connection terminated" ∧
      searchByPolygon (fun _ => []) (fun _ => none) trivialFns dbFault
          (fun _ => true) polygonT 10
        = { emptyBatchResult 10 with
            debug_wkt := polygonToWKT polygonT,
            debug_error := some "connection terminated" } :=
  ⟨by decide, rfl,
    (polygon_search_error_contract (fun _ => []) (fun _ => none) trivialFns dbFault
      (fun _ => true) polygonT 10).2.1 "connection terminated" (by decide) rfl⟩

end Cadastre
